import Mathlib

/-!
# geofeed-tools: the line validator of `plugin/validate/main.go`

A shallow embedding of `checkSyntax` and `genSubdivisionMap`
(`src/plugin/validate/main.go`) together with models of the Go standard
library functions the validator calls (`strings.TrimSpace`,
`strings.HasPrefix`, `encoding/csv`, `net.ParseCIDR`, `fmt.Sprintf`).

Conventions.
* A Go `string` is a Lean `String`; the library models work on its list of
  characters, so the input text is taken to be valid UTF-8.
* A Go `map[string]V` is an association list with distinct keys (`GoMap V`).
* `lineNumber` is a `Nat`: a file cannot hold `2^63` lines, so the Go `int`
  never wraps.
* The `bufio.Scanner` is the list of lines its successive `Scan` calls yield.
-/

namespace Geofeed

/-! ## Go maps -/

/-- A Go `map[string]V`: finitely many entries, keys pairwise distinct. -/
abbrev GoMap (V : Type) := AList (fun _ : String => V)

/-- The Go expression `m[k]` on a `map[string]bool`: the stored value, or the
zero value `false` when the key is absent. -/
def GoMap.index (m : GoMap Bool) (k : String) : Bool :=
  (m.lookup k).getD false

/-- The Go expression `_, ok := m[k]`: whether the key is present. -/
def GoMap.has {V : Type} (m : GoMap V) (k : String) : Bool :=
  (m.lookup k).isSome

/-! ## Data model (`main.go` lines 21-29) -/

/-- `type Country struct` of the source. -/
structure Country where
  Name : String
  Code : String
deriving DecidableEq, Repr

/-- `type Subdivision struct` of the source. -/
structure Subdivision where
  Name : String
  Code : String
deriving DecidableEq, Repr

/-- `type SubdivisionMap map[string][]Subdivision` of the source. -/
abbrev SubdivisionMap := GoMap (List Subdivision)

/-- The constants of package `plugin/color` that the validator splices into
its format strings. The package is not among the sources, so its values are
a parameter; they are assumed to hold no `%` (they are part of a `Sprintf`
format). -/
structure Color where
  Reset : String
  Red : String
  Green : String
  Magenta : String
  Cyan : String
deriving DecidableEq, Repr

/-- The ANSI escape sequences that `validator.go` (lines 17-24) declares under
the same names. -/
def ansi : Color :=
  { Reset := "\x1b[0m", Red := "\x1b[31m", Green := "\x1b[32m",
    Magenta := "\x1b[35m", Cyan := "\x1b[36m" }

/-! ## Models of the Go standard library -/

/-- Go `unicode.IsSpace`: the Latin-1 spaces and the other code points with
the `White_Space` property. -/
def isSpace (c : Char) : Bool :=
  let n := c.toNat
  (9 ≤ n && n ≤ 13) || n == 32 || n == 0x85 || n == 0xA0 || n == 0x1680 ||
  (0x2000 ≤ n && n ≤ 0x200A) || n == 0x2028 || n == 0x2029 || n == 0x202F ||
  n == 0x205F || n == 0x3000

/-- Go `strings.TrimSpace` on the characters of a string. -/
def trimSpaceChars (s : List Char) : List Char :=
  ((s.dropWhile isSpace).reverse.dropWhile isSpace).reverse

/-- Go `strings.TrimSpace`. -/
def TrimSpace (s : String) : String :=
  ⟨trimSpaceChars s.data⟩

/-- Whether the character list `p` starts the character list `s`. -/
def hasPrefixChars : List Char → List Char → Bool
  | _, [] => true
  | [], _ :: _ => false
  | c :: s, d :: p => c == d && hasPrefixChars s p

/-- Go `strings.HasPrefix s p`. -/
def HasPrefix (s p : String) : Bool :=
  hasPrefixChars s.data p.data

/-- Where `encoding/csv`'s `readRecord` stands within a line. -/
inductive CsvState where
  /-- At the first character of a field. -/
  | fieldStart
  /-- Inside a field that did not open with a double quote. -/
  | bare
  /-- Inside a quoted field, after its opening quote. -/
  | quoted
  /-- Inside a quoted field, right after a double quote. -/
  | quoteSeen
deriving DecidableEq, Repr

/-- Go `csv.Reader.readRecord` on one line without a line break, with the
reader's defaults (`Comma = ','`, no `LazyQuotes`, no `TrimLeadingSpace`):
`cur` is the field being read, `fields` the fields completed so far. The
result is the record and whether a parse error was met; on an error the
record holds the fields completed before it, as `Read` documents. -/
def csvScan : CsvState → List Char → List Char → List String → List String × Bool
  | .fieldStart, [], _, fields => (fields ++ [""], false)
  | .fieldStart, c :: rest, _, fields =>
    if c = '"' then csvScan .quoted rest [] fields
    else if c = ',' then csvScan .fieldStart rest [] (fields ++ [""])
    else csvScan .bare rest [c] fields
  | .bare, [], cur, fields => (fields ++ [String.mk cur], false)
  | .bare, c :: rest, cur, fields =>
    if c = ',' then csvScan .fieldStart rest [] (fields ++ [String.mk cur])
    else if c = '"' then (fields, true)
    else csvScan .bare rest (cur ++ [c]) fields
  | .quoted, [], _, fields => (fields, true)
  | .quoted, c :: rest, cur, fields =>
    if c = '"' then csvScan .quoteSeen rest cur fields
    else csvScan .quoted rest (cur ++ [c]) fields
  | .quoteSeen, [], cur, fields => (fields ++ [String.mk cur], false)
  | .quoteSeen, c :: rest, cur, fields =>
    if c = '"' then csvScan .quoted rest (cur ++ ['"']) fields
    else if c = ',' then csvScan .fieldStart rest [] (fields ++ [String.mk cur])
    else (fields, true)

/-- The line as `csv.Reader.readLine` hands it over: one trailing carriage
return before the end of input is dropped. -/
def csvLine (s : List Char) : List Char :=
  if s.getLast? = some '\r' then s.dropLast else s

/-- Go `csv.NewReader(strings.NewReader(line))` with `FieldsPerRecord = -1`,
then one `Read`: the record and whether `Read` returned an error. The lines
that reach it hold a character that is not a space, and no line break. -/
def csvRead (line : String) : List String × Bool :=
  csvScan .fieldStart (csvLine line.data) [] []

/-- Go `net.dtoi`'s bound on the numbers it reads. -/
def big : Nat := 0xFFFFFF

/-- Whether the character is an ASCII decimal digit. -/
def isDigit (c : Char) : Bool :=
  48 ≤ c.toNat && c.toNat ≤ 57

/-- The value of an ASCII hexadecimal digit, if the character is one. -/
def hexVal (c : Char) : Option Nat :=
  let n := c.toNat
  if 48 ≤ n && n ≤ 57 then some (n - 48)
  else if 97 ≤ n && n ≤ 102 then some (n - 97 + 10)
  else if 65 ≤ n && n ≤ 70 then some (n - 65 + 10)
  else none

/-- The loop of Go `net.dtoi`: the number read so far, the count of digits
consumed and whether the number stayed below `big`. -/
def dtoiLoop : List Char → Nat → Nat → Nat × Nat × Bool
  | [], n, i => (n, i, true)
  | c :: s, n, i =>
    if isDigit c then
      let m := n * 10 + (c.toNat - 48)
      if m ≥ big then (big, i, false) else dtoiLoop s m (i + 1)
    else (n, i, true)

/-- Go `net.dtoi`: decimal to integer, `(n, i, ok)`. -/
def dtoi (s : List Char) : Nat × Nat × Bool :=
  match dtoiLoop s 0 0 with
  | (n, i, true) => if i = 0 then (0, 0, false) else (n, i, true)
  | r => r

/-- Go `netip.parseIPv4Fields` on the whole of `s`, as a pass/fail: `prev` is
the character before the current one, `val` the value of the current octet,
`pos` the count of octets completed, `digLen` the digits of the current
octet. -/
def parseIPv4Fields : List Char → Option Char → Nat → Nat → Nat → Bool
  | [], _, _, pos, _ => decide (3 ≤ pos)
  | c :: rest, prev, val, pos, digLen =>
    if isDigit c then
      if digLen = 1 ∧ val = 0 then false
      else
        let v := val * 10 + (c.toNat - 48)
        if v > 255 then false else parseIPv4Fields rest (some c) v pos (digLen + 1)
    else if c = '.' then
      if prev = none ∨ rest = [] ∨ prev = some '.' then false
      else if pos = 3 then false
      else parseIPv4Fields rest (some c) 0 (pos + 1) 0
    else false

/-- The loop `for i < 16` of Go `netip.parseIPv6`: `s` is the text left, `i`
the count of address bytes filled, `ellipsis` the position of `::` if one was
seen. The result is the state at the loop's exit, or `none` on an error. Every
round that does not leave the loop adds 2 to `i`, so 8 rounds suffice. -/
def parseIPv6Loop : Nat → List Char → Nat → Option Nat →
    Option (List Char × Nat × Option Nat)
  | 0, s, i, ellipsis => some (s, i, ellipsis)
  | fuel + 1, s, i, ellipsis =>
    if ¬ i < 16 then some (s, i, ellipsis)
    else
      let hex := s.takeWhile (fun c => (hexVal c).isSome)
      let rest := s.drop hex.length
      if hex.length > 4 then none
      else if hex.length = 0 then none
      else if rest.head? = some '.' then
        if ellipsis = none ∧ i ≠ 12 then none
        else if i + 4 > 16 then none
        else if parseIPv4Fields s none 0 0 0 then some ([], i + 4, ellipsis)
        else none
      else
        match rest with
        | [] => some ([], i + 2, ellipsis)
        | c :: t =>
          if c ≠ ':' then none
          else
            match t with
            | [] => none
            | d :: u =>
              if d = ':' then
                if ellipsis.isSome then none
                else if u = [] then some ([], i + 2, some (i + 2))
                else parseIPv6Loop fuel u (i + 2) (some (i + 2))
              else parseIPv6Loop fuel t (i + 2) ellipsis

/-- Go `netip.parseIPv6` as far as `ParseCIDR` looks at it: the zone of the
parsed address, or `none` when parsing fails. -/
def parseIPv6 (input : List Char) : Option (List Char) :=
  let s := input.takeWhile (fun c => c ≠ '%')
  let zone := input.drop (s.length + 1)
  if s.length < input.length ∧ zone = [] then none
  else
    let start : Option (List Char × Nat × Option Nat) :=
      match s with
      | ':' :: ':' :: t => if t = [] then some ([], 0, some 0) else parseIPv6Loop 8 t 0 (some 0)
      | _ => parseIPv6Loop 8 s 0 none
    match start with
    | none => none
    | some (left, i, ellipsis) =>
      if left ≠ [] then none
      else if i < 16 then (if ellipsis = none then none else some zone)
      else if ellipsis.isSome then none
      else some zone

/-- Go `netip.ParseAddr` as far as `ParseCIDR` looks at it: the bit length and
the zone of the parsed address, or `none` when parsing fails. The first of
`.`, `:` and `%` in the text decides how it is read. -/
def ParseAddr (s : List Char) : Option (Nat × List Char) :=
  match s.find? (fun c => c = '.' ∨ c = ':' ∨ c = '%') with
  | some '.' => if parseIPv4Fields s none 0 0 0 then some (32, []) else none
  | some ':' => (parseIPv6 s).map (fun zone => (128, zone))
  | _ => none

/-- Go `net.ParseCIDR s` (as implemented since Go 1.22, through
`netip.ParseAddr`), reduced to `err == nil`: the text before the first
`/` parses as an IP address without a zone, and the text after it is a decimal
number between 0 and the address's bit length. -/
def ParseCIDR (s : String) : Bool :=
  let addr := s.data.takeWhile (fun c => c ≠ '/')
  let mask := s.data.drop (addr.length + 1)
  if ¬ addr.length < s.data.length then false
  else
    match ParseAddr addr with
    | none => false
    | some (bitLen, zone) =>
      if zone ≠ [] then false
      else
        match dtoi mask with
        | (n, i, ok) => ok && i == mask.length && n ≤ bitLen

/-! ## The validator (`plugin/validate/main.go`) -/

/-- `fmt.Sprintf` of line 89: the record has fewer than 5 fields. -/
def msgGeofeed (color : Color) (lineNumber : Nat) : String :=
  "Line " ++ toString lineNumber ++ ": invalid " ++ color.Magenta ++ "geofeed " ++
    color.Reset ++ "format"

/-- `fmt.Sprintf` of line 98: field 0 is not CIDR notation. -/
def msgPrefix (color : Color) (lineNumber : Nat) (pfx : String) : String :=
  "Line " ++ toString lineNumber ++ ": invalid " ++ color.Magenta ++ "prefix " ++
    color.Reset ++ "format (" ++ color.Cyan ++ pfx ++ color.Reset ++ ")"

/-- `fmt.Sprintf` of line 109: field 1 is not in the country map. -/
def msgCountry (color : Color) (lineNumber : Nat) (countryCode : String) : String :=
  "Line " ++ toString lineNumber ++ ": invalid " ++ color.Magenta ++ "country code " ++
    color.Reset ++ "(" ++ color.Cyan ++ countryCode ++ color.Reset ++ ")"

/-- `fmt.Sprintf` of line 121: field 2 is not a subdivision of field 1. -/
def msgSubdivision (color : Color) (lineNumber : Nat) (subdivisionCode countryCode : String) :
    String :=
  "Line " ++ toString lineNumber ++ ": invalid " ++ color.Magenta ++ "subdivision code " ++
    color.Reset ++ "(" ++ color.Cyan ++ subdivisionCode ++ color.Reset ++ ") " ++
    "for country (" ++ color.Cyan ++ countryCode ++ color.Reset ++ ")"

/-- `fmt.Sprintf` of line 124: field 1 is no key of the subdivision map. -/
def msgNoSubdivisions (color : Color) (lineNumber : Nat) (countryCode : String) : String :=
  "Line " ++ toString lineNumber ++ ": no subdivisions found for country (" ++
    color.Cyan ++ countryCode ++ color.Reset ++ ")"

/-- The inner loop of `genSubdivisionMap` (lines 56-59): the map that sends
the code of every subdivision of the list to `true`. -/
def genSubMap (subs : List Subdivision) : GoMap Bool :=
  subs.foldl (fun subMap sub => subMap.insert sub.Code true) ∅

/-- `genSubdivisionMap` (lines 53-63): every country key keeps its place, its
list of subdivisions becomes the map from each code to `true`. The `range`
over the Go map visits the entries in the order the association list holds
them. -/
def genSubdivisionMap (subdivisions : SubdivisionMap) : GoMap (GoMap Bool) :=
  subdivisions.entries.foldl
    (fun subdivisionMap entry => subdivisionMap.insert entry.1 (genSubMap entry.2))
    ∅

/-- The body of the `for scanner.Scan()` loop of `checkSyntax` (lines 70-125)
for one line: the messages it appends to `feedErrors`. -/
def checkLine (color : Color) (countryMap : GoMap Bool) (subdivisionMap : GoMap (GoMap Bool))
    (lineNumber : Nat) (line : String) : List String :=
  if TrimSpace line = "" then []
  else if HasPrefix (TrimSpace line) "#" then []
  else
    let record := (csvRead line).1
    if record.length < 5 then [msgGeofeed color lineNumber]
    else
      let pfx := record.getD 0 ""
      let countryCode := record.getD 1 ""
      let subdivisionCode := record.getD 2 ""
      let feedErrors : List String :=
        if ParseCIDR pfx then [] else [msgPrefix color lineNumber pfx]
      if countryCode = "" then feedErrors
      else if ¬ countryMap.index countryCode then
        feedErrors ++ [msgCountry color lineNumber countryCode]
      else if subdivisionCode = "" then feedErrors
      else
        match subdivisionMap.lookup countryCode with
        | some subMap =>
          if ¬ subMap.has subdivisionCode then
            feedErrors ++ [msgSubdivision color lineNumber subdivisionCode countryCode]
          else feedErrors
        | none => feedErrors ++ [msgNoSubdivisions color lineNumber countryCode]

/-- The loop of `checkSyntax`: `lineNumber` lines were read so far and
`feedErrors` collected; `scanner` holds the lines still to come. -/
def checkSyntaxLoop (color : Color) (countryMap : GoMap Bool)
    (subdivisionMap : GoMap (GoMap Bool)) : List String → Nat → List String → List String
  | [], _, feedErrors => feedErrors
  | line :: scanner, lineNumber, feedErrors =>
    checkSyntaxLoop color countryMap subdivisionMap scanner (lineNumber + 1)
      (feedErrors ++ checkLine color countryMap subdivisionMap (lineNumber + 1) line)

/-- `checkSyntax` (lines 65-129). -/
def checkSyntax (color : Color) (scanner : List String) (countryMap : GoMap Bool)
    (subdivisionMap : GoMap (GoMap Bool)) : List String :=
  checkSyntaxLoop color countryMap subdivisionMap scanner 0 []

/-- The country map that `Execute` builds (lines 142-145). -/
def buildCountryMap (countries : List Country) : GoMap Bool :=
  countries.foldl (fun countryMap country => countryMap.insert country.Code true) ∅

/-! ## Vocabulary of the statements -/

/-- The record that line 85 reads from a line. -/
def recordOf (line : String) : List String :=
  (csvRead line).1

/-- Field `i` of the record of a line (`record[i]`; the empty string when the
record is shorter). -/
def fieldOf (line : String) (i : Nat) : String :=
  (recordOf line).getD i ""

/-- Lines 74 and 79: the loop skips the line, as blank or as a comment, and
reads no record from it. -/
def skipped (line : String) : Bool :=
  decide (TrimSpace line = "") || HasPrefix (TrimSpace line) "#"

/-- What lines 96-100 append: the prefix-format message when field 0 is not
CIDR notation, nothing otherwise. -/
def cidrErrors (color : Color) (lineNumber : Nat) (line : String) : List String :=
  if ParseCIDR (fieldOf line 0) then [] else [msgPrefix color lineNumber (fieldOf line 0)]

/-- The message is an "invalid geofeed format" diagnostic, of any line. -/
def IsGeofeedDiag (color : Color) (msg : String) : Prop :=
  ∃ n, msg = msgGeofeed color n

/-- The message is an "invalid prefix format" diagnostic, of any line and
for any field 0. -/
def IsPrefixDiag (color : Color) (msg : String) : Prop :=
  ∃ n p, msg = msgPrefix color n p

/-- The message is an "invalid country code" diagnostic, of any line and for
any code. -/
def IsCountryDiag (color : Color) (msg : String) : Prop :=
  ∃ n c, msg = msgCountry color n c

/-- The message is an "invalid subdivision code" diagnostic, of any line and
for any codes. -/
def IsSubdivisionDiag (color : Color) (msg : String) : Prop :=
  ∃ n s c, msg = msgSubdivision color n s c

/-- The message is a "no subdivisions found for country" diagnostic, of any
line and for any code. -/
def IsNoSubdivisionsDiag (color : Color) (msg : String) : Prop :=
  ∃ n c, msg = msgNoSubdivisions color n c

/-- A small country list for the worked examples. -/
def sampleCountries : List Country :=
  [⟨"United States of America", "US"⟩, ⟨"Canada", "CA"⟩, ⟨"Antarctica", "AQ"⟩]

/-- A small subdivision mapping for the worked examples: `US` has one
subdivision, `AQ` is a key with an empty list, `CA` is no key. -/
def sampleSubdivisions : SubdivisionMap :=
  ((∅ : SubdivisionMap).insert "AQ" []).insert "US" [⟨"California", "US-CA"⟩]

/-- A country list in which one entry has the empty string as its code. -/
def blankCodeCountries : List Country :=
  [⟨"Unassigned", ""⟩, ⟨"United States of America", "US"⟩]

/-- A subdivision mapping in which the empty string is a key. -/
def blankCodeSubdivisions : SubdivisionMap :=
  (∅ : SubdivisionMap).insert "" [⟨"Nowhere", "X-1"⟩]

/-- The value of a string of decimal digits. -/
def parseDigits (cs : List Char) : Nat :=
  cs.foldl (fun a c => a * 10 + (c.toNat - 48)) 0

/-- The line number a diagnostic carries: the decimal number that follows its
leading `Line `, if the message starts that way. -/
def lineNumberOf (msg : String) : Option Nat :=
  match msg.data with
  | 'L' :: 'i' :: 'n' :: 'e' :: ' ' :: rest =>
    let digits := rest.takeWhile isDigit
    if digits = [] then none else some (parseDigits digits)
  | _ => none

/-- The message with the line number it carries raised by `k`; a text that
carries no line number is left as it is. -/
def shiftLine (k : Nat) (msg : String) : String :=
  match msg.data with
  | 'L' :: 'i' :: 'n' :: 'e' :: ' ' :: rest =>
    let digits := rest.takeWhile isDigit
    if digits = [] then msg
    else ⟨"Line ".data ++ (toString (parseDigits digits + k)).data ++ rest.drop digits.length⟩
  | _ => msg

/-- The text `Line n:` followed by `rest`: the shape of every diagnostic. -/
def lineMsg (n : Nat) (rest : List Char) : String :=
  ⟨"Line ".data ++ ((toString n).data ++ ':' :: rest)⟩

/-- The country list without the entries whose code an earlier entry already
has: of several entries with one code the first is kept. -/
def dedupCodes : List Country → List Country
  | [] => []
  | c :: cs => c :: (dedupCodes cs).filter (fun x => decide (x.Code ≠ c.Code))

/-! ## The command line (`main.go`) -/

/-- `const version` of `main.go`. -/
def version : String := "1.0.0"

/-- `var help` of `main.go` (lines 12-17). -/
def help : String :=
  "Geofeed Tools Version " ++ version ++ " (compiled to binary)\n" ++
    "Usage: ./geofeed-tools [flags] [filepath]\n\n" ++
    "Flags:\n" ++
    "  -h    Show this help message\n" ++
    "  -v    Validate a geofeed file\n"

/-- The text line 32 prints when `-v` does not come with one argument. -/
def usageText : String :=
  "Usage: ./geofeed-tools -v [filepath]\n"

/-- The text lines 39-41 print for a first argument that is no known flag. -/
def invalidFlagText (flag : String) : String :=
  "Error: Invalid flag \"" ++ flag ++ "\"\n" ++
    "Use \"./geofeed-tools -h\" to see available flags.\n"

/-- What a run of `main` does: it prints a text and leaves through `os.Exit`
with a status, or it calls `validate.Execute` on a file path and returns. -/
inductive MainResult where
  /-- The text was printed, then `os.Exit(status)`. -/
  | exit (output : String) (status : Nat)
  /-- The call `validate.Execute(filePath)` was made. -/
  | execute (filePath : String)
deriving DecidableEq, Repr

/-- `main` of `main.go` (lines 19-44) on the argument vector `os.Args`. -/
def main (args : List String) : MainResult :=
  if args.length < 2 then .exit help 1
  else
    let flag := args.getD 1 ""
    if flag = "-h" then .exit help 1
    else if flag = "-v" then
      if args.length ≠ 3 then .exit usageText 1
      else
        let filePath := args.getD 2 ""
        .execute filePath
    else .exit (invalidFlagText flag) 1

/-! ## The stand-alone validator (`validator.go`) -/

/-- The body of the `for scanner.Scan()` loop of `validateGeofeed`
(`validator.go` lines 67-124) for one line: the messages it appends to
`errors`. The format strings are those of `checkSyntax` with the colour
constants of `validator.go`; the subdivision is looked up by a linear search
through `subdivisions[countryCode]`, which is the empty list for a key the
mapping does not hold. -/
def validateGeofeedLine (countryMap : GoMap Bool) (subdivisions : SubdivisionMap)
    (lineNumber : Nat) (line : String) : List String :=
  if TrimSpace line = "" then []
  else if HasPrefix (TrimSpace line) "#" then []
  else
    let record := (csvRead line).1
    if record.length < 5 then [msgGeofeed ansi lineNumber]
    else
      let pfx := record.getD 0 ""
      let countryCode := record.getD 1 ""
      let subdivisionCode := record.getD 2 ""
      let errors : List String :=
        if ParseCIDR pfx then [] else [msgPrefix ansi lineNumber pfx]
      if countryCode = "" then errors
      else if ¬ countryMap.index countryCode then
        errors ++ [msgCountry ansi lineNumber countryCode]
      else if subdivisionCode = "" then errors
      else
        let validSubdivision : Bool :=
          ((subdivisions.lookup countryCode).getD []).any
            (fun subdivision => decide (subdivision.Code = subdivisionCode))
        if ¬ validSubdivision then
          errors ++ [msgSubdivision ansi lineNumber subdivisionCode countryCode]
        else errors

/-- The loop of `validateGeofeed`: `lineNumber` lines were read so far and
`errors` collected; `scanner` holds the lines still to come. -/
def validateGeofeedLoop (countryMap : GoMap Bool) (subdivisions : SubdivisionMap) :
    List String → Nat → List String → List String
  | [], _, errors => errors
  | line :: scanner, lineNumber, errors =>
    validateGeofeedLoop countryMap subdivisions scanner (lineNumber + 1)
      (errors ++ validateGeofeedLine countryMap subdivisions (lineNumber + 1) line)

/-- `validateGeofeed` (`validator.go` lines 49-128). `geofeedFile` stands for
what `os.Open` and the scanner give for the path: the text of the error when
the file cannot be opened, the lines of the file otherwise. -/
def validateGeofeed (geofeedFile : Except String (List String)) (countries : List Country)
    (subdivisions : SubdivisionMap) : List String :=
  let countryMap := buildCountryMap countries
  match geofeedFile with
  | .error err => ["Failed to open geofeed file: " ++ err]
  | .ok scanner => validateGeofeedLoop countryMap subdivisions scanner 0 []

end Geofeed

namespace Geofeed

/-! ## Shared lemmas -/

theorem checkLine_of_skipped (color : Color) (countryMap : GoMap Bool)
    (subdivisionMap : GoMap (GoMap Bool)) (n : Nat) (line : String)
    (h : skipped line = true) : checkLine color countryMap subdivisionMap n line = [] := by
  unfold skipped at h
  unfold checkLine
  by_cases hb : TrimSpace line = ""
  · simp [hb]
  · have hc : HasPrefix (TrimSpace line) "#" = true := by simpa [hb] using h
    simp [hb, hc]

theorem checkLine_of_short (color : Color) (countryMap : GoMap Bool)
    (subdivisionMap : GoMap (GoMap Bool)) (n : Nat) (line : String)
    (hs : skipped line = false) (hlen : (recordOf line).length < 5) :
    checkLine color countryMap subdivisionMap n line = [msgGeofeed color n] := by
  unfold skipped at hs
  simp only [Bool.or_eq_false_iff, decide_eq_false_iff_not] at hs
  unfold recordOf at hlen
  unfold checkLine
  simp [hs.1, hs.2, hlen]

/-- The decision chain of lines 93-125 for a line that is read as a record of
at least 5 fields. -/
theorem checkLine_of_record (color : Color) (countryMap : GoMap Bool)
    (subdivisionMap : GoMap (GoMap Bool)) (n : Nat) (line : String)
    (hs : skipped line = false) (hlen : 5 ≤ (recordOf line).length) :
    checkLine color countryMap subdivisionMap n line =
      if fieldOf line 1 = "" then cidrErrors color n line
      else if countryMap.index (fieldOf line 1) = false then
        cidrErrors color n line ++ [msgCountry color n (fieldOf line 1)]
      else if fieldOf line 2 = "" then cidrErrors color n line
      else
        match subdivisionMap.lookup (fieldOf line 1) with
        | some subMap =>
          if subMap.has (fieldOf line 2) = false then
            cidrErrors color n line ++
              [msgSubdivision color n (fieldOf line 2) (fieldOf line 1)]
          else cidrErrors color n line
        | none => cidrErrors color n line ++ [msgNoSubdivisions color n (fieldOf line 1)] := by
  unfold skipped at hs
  simp only [Bool.or_eq_false_iff, decide_eq_false_iff_not] at hs
  have hlen2 : ¬ (csvRead line).1.length < 5 := by
    unfold recordOf at hlen
    omega
  unfold checkLine cidrErrors fieldOf recordOf
  simp only [hs.1, hs.2, hlen2, if_false, Bool.false_eq_true, Bool.not_eq_true]

theorem cidrErrors_length_le (color : Color) (n : Nat) (line : String) :
    (cidrErrors color n line).length ≤ 1 := by
  unfold cidrErrors
  split <;> simp

/-! ### The loop of `checkSyntax` appends the diagnostics of each line in turn -/

theorem checkSyntaxLoop_acc (color : Color) (countryMap : GoMap Bool)
    (subdivisionMap : GoMap (GoMap Bool)) :
    ∀ (scanner : List String) (k : Nat) (acc : List String),
      checkSyntaxLoop color countryMap subdivisionMap scanner k acc =
        acc ++ checkSyntaxLoop color countryMap subdivisionMap scanner k [] := by
  intro scanner
  induction scanner with
  | nil => intro k acc; simp [checkSyntaxLoop]
  | cons line rest ih =>
    intro k acc
    simp only [checkSyntaxLoop, List.nil_append]
    rw [ih (k + 1) (acc ++ _), ih (k + 1) (checkLine color countryMap subdivisionMap (k + 1) line)]
    simp

theorem checkSyntaxLoop_append (color : Color) (countryMap : GoMap Bool)
    (subdivisionMap : GoMap (GoMap Bool)) :
    ∀ (pre post : List String) (k : Nat) (acc : List String),
      checkSyntaxLoop color countryMap subdivisionMap (pre ++ post) k acc =
        checkSyntaxLoop color countryMap subdivisionMap post (k + pre.length)
          (checkSyntaxLoop color countryMap subdivisionMap pre k acc) := by
  intro pre
  induction pre with
  | nil => intro post k acc; simp [checkSyntaxLoop]
  | cons line rest ih =>
    intro post k acc
    have hk : k + (line :: rest).length = k + 1 + rest.length := by
      simp only [List.length_cons]
      omega
    rw [List.cons_append, checkSyntaxLoop, checkSyntaxLoop, ih post (k + 1) _, hk]

/-- The output of `checkSyntax` around the line at position `pre.length + 1`:
the diagnostics of the lines before it, then what the loop body appends for
the line under that number, then the diagnostics of the lines after it. -/
theorem checkSyntax_split (color : Color) (countryMap : GoMap Bool)
    (subdivisionMap : GoMap (GoMap Bool)) (pre post : List String) (line : String) :
    checkSyntax color (pre ++ line :: post) countryMap subdivisionMap =
      checkSyntax color pre countryMap subdivisionMap ++
        checkLine color countryMap subdivisionMap (pre.length + 1) line ++
        checkSyntaxLoop color countryMap subdivisionMap post (pre.length + 1) [] := by
  unfold checkSyntax
  rw [checkSyntaxLoop_append, checkSyntaxLoop]
  rw [checkSyntaxLoop_acc]
  simp

/-- On a one-line input `checkSyntax` returns what the loop body appends for
line 1. -/
theorem checkSyntax_singleton (color : Color) (countryMap : GoMap Bool)
    (subdivisionMap : GoMap (GoMap Bool)) (line : String) :
    checkSyntax color [line] countryMap subdivisionMap =
      checkLine color countryMap subdivisionMap 1 line := by
  simp [checkSyntax, checkSyntaxLoop]

/-! ### The messages of different kinds are different strings -/

theorem digitChar_ne_colon (d : Nat) (h : d < 10) : Nat.digitChar d ≠ ':' := by
  interval_cases d <;> decide

theorem toDigitsCore_ne_colon (fuel : Nat) : ∀ (n : Nat) (ds : List Char),
    (∀ c ∈ ds, c ≠ ':') → ∀ c ∈ Nat.toDigitsCore 10 fuel n ds, c ≠ ':' := by
  induction fuel with
  | zero => intro n ds hds c hc; simpa [Nat.toDigitsCore] using hds c (by simpa [Nat.toDigitsCore] using hc)
  | succ fuel ih =>
    intro n ds hds c hc
    have hd : Nat.digitChar (n % 10) ≠ ':' := digitChar_ne_colon _ (Nat.mod_lt _ (by decide))
    have hds2 : ∀ c ∈ Nat.digitChar (n % 10) :: ds, c ≠ ':' := by
      intro c hc
      rcases List.mem_cons.1 hc with rfl | hc
      · exact hd
      · exact hds c hc
    unfold Nat.toDigitsCore at hc
    by_cases h0 : n / 10 = 0
    · simp only [h0, if_true] at hc
      exact hds2 c hc
    · simp only [h0, if_false] at hc
      exact ih _ _ hds2 c hc

theorem repr_ne_colon (n : Nat) : ∀ c ∈ (toString n).data, c ≠ ':' := by
  intro c hc
  have : (toString n).data = Nat.toDigits 10 n := rfl
  rw [this] at hc
  exact toDigitsCore_ne_colon _ _ _ (by simp) c hc

theorem colon_cancel : ∀ (a b x y : List Char), (∀ c ∈ a, c ≠ ':') → (∀ c ∈ b, c ≠ ':') →
    a ++ ':' :: x = b ++ ':' :: y → a = b ∧ x = y := by
  intro a
  induction a with
  | nil =>
    intro b x y _ hb h
    cases b with
    | nil => simpa using h
    | cons d b =>
      simp only [List.nil_append, List.cons_append, List.cons.injEq] at h
      exact absurd h.1.symm (hb d (by simp))
  | cons c a ih =>
    intro b x y ha hb h
    cases b with
    | nil =>
      simp only [List.nil_append, List.cons_append, List.cons.injEq] at h
      exact absurd h.1 (ha c (by simp))
    | cons d b =>
      simp only [List.cons_append, List.cons.injEq] at h
      have := ih b x y (fun e he => ha e (by simp [he])) (fun e he => hb e (by simp [he])) h.2
      exact ⟨by rw [h.1, this.1], this.2⟩

theorem msgGeofeed_ne_msgPrefix (color : Color) (n m : Nat) (p2 : String) :
    msgGeofeed color n ≠ msgPrefix color m p2 := by
  intro h
  have hd := congrArg String.data h
  simp only [msgGeofeed, msgPrefix, String.data_append, List.append_assoc] at hd
  have ht := colon_cancel _ _ _ _ (repr_ne_colon n) (repr_ne_colon m)
    (List.append_cancel_left hd)
  simp at ht

theorem msgGeofeed_ne_msgCountry (color : Color) (n m : Nat) (c2 : String) :
    msgGeofeed color n ≠ msgCountry color m c2 := by
  intro h
  have hd := congrArg String.data h
  simp only [msgGeofeed, msgCountry, String.data_append, List.append_assoc] at hd
  have ht := colon_cancel _ _ _ _ (repr_ne_colon n) (repr_ne_colon m)
    (List.append_cancel_left hd)
  simp at ht

theorem msgGeofeed_ne_msgSubdivision (color : Color) (n m : Nat) (s2 c2 : String) :
    msgGeofeed color n ≠ msgSubdivision color m s2 c2 := by
  intro h
  have hd := congrArg String.data h
  simp only [msgGeofeed, msgSubdivision, String.data_append, List.append_assoc] at hd
  have ht := colon_cancel _ _ _ _ (repr_ne_colon n) (repr_ne_colon m)
    (List.append_cancel_left hd)
  simp at ht

theorem msgGeofeed_ne_msgNoSubdivisions (color : Color) (n m : Nat) (c2 : String) :
    msgGeofeed color n ≠ msgNoSubdivisions color m c2 := by
  intro h
  have hd := congrArg String.data h
  simp only [msgGeofeed, msgNoSubdivisions, String.data_append, List.append_assoc] at hd
  have ht := colon_cancel _ _ _ _ (repr_ne_colon n) (repr_ne_colon m)
    (List.append_cancel_left hd)
  simp at ht

theorem msgPrefix_ne_msgCountry (color : Color) (n m : Nat) (p c2 : String) :
    msgPrefix color n p ≠ msgCountry color m c2 := by
  intro h
  have hd := congrArg String.data h
  simp only [msgPrefix, msgCountry, String.data_append, List.append_assoc] at hd
  have ht := colon_cancel _ _ _ _ (repr_ne_colon n) (repr_ne_colon m)
    (List.append_cancel_left hd)
  simp at ht

theorem msgPrefix_ne_msgSubdivision (color : Color) (n m : Nat) (p s2 c2 : String) :
    msgPrefix color n p ≠ msgSubdivision color m s2 c2 := by
  intro h
  have hd := congrArg String.data h
  simp only [msgPrefix, msgSubdivision, String.data_append, List.append_assoc] at hd
  have ht := colon_cancel _ _ _ _ (repr_ne_colon n) (repr_ne_colon m)
    (List.append_cancel_left hd)
  simp at ht

theorem msgPrefix_ne_msgNoSubdivisions (color : Color) (n m : Nat) (p c2 : String) :
    msgPrefix color n p ≠ msgNoSubdivisions color m c2 := by
  intro h
  have hd := congrArg String.data h
  simp only [msgPrefix, msgNoSubdivisions, String.data_append, List.append_assoc] at hd
  have ht := colon_cancel _ _ _ _ (repr_ne_colon n) (repr_ne_colon m)
    (List.append_cancel_left hd)
  simp at ht

theorem msgCountry_ne_msgSubdivision (color : Color) (n m : Nat) (c s2 c2 : String) :
    msgCountry color n c ≠ msgSubdivision color m s2 c2 := by
  intro h
  have hd := congrArg String.data h
  simp only [msgCountry, msgSubdivision, String.data_append, List.append_assoc] at hd
  have ht := colon_cancel _ _ _ _ (repr_ne_colon n) (repr_ne_colon m)
    (List.append_cancel_left hd)
  simp at ht

theorem msgCountry_ne_msgNoSubdivisions (color : Color) (n m : Nat) (c c2 : String) :
    msgCountry color n c ≠ msgNoSubdivisions color m c2 := by
  intro h
  have hd := congrArg String.data h
  simp only [msgCountry, msgNoSubdivisions, String.data_append, List.append_assoc] at hd
  have ht := colon_cancel _ _ _ _ (repr_ne_colon n) (repr_ne_colon m)
    (List.append_cancel_left hd)
  simp at ht

theorem msgSubdivision_ne_msgNoSubdivisions (color : Color) (n m : Nat) (s c c2 : String) :
    msgSubdivision color n s c ≠ msgNoSubdivisions color m c2 := by
  intro h
  have hd := congrArg String.data h
  simp only [msgSubdivision, msgNoSubdivisions, String.data_append, List.append_assoc] at hd
  have ht := colon_cancel _ _ _ _ (repr_ne_colon n) (repr_ne_colon m)
    (List.append_cancel_left hd)
  simp at ht

theorem not_isCountryDiag_msgPrefix (color : Color) (n : Nat) (p : String) :
    ¬ IsCountryDiag color (msgPrefix color n p) := by
  rintro ⟨m, c, h⟩
  exact msgPrefix_ne_msgCountry color n m p c h

theorem not_isSubdivisionDiag_msgPrefix (color : Color) (n : Nat) (p : String) :
    ¬ IsSubdivisionDiag color (msgPrefix color n p) := by
  rintro ⟨m, s, c, h⟩
  exact msgPrefix_ne_msgSubdivision color n m p s c h

theorem not_isNoSubdivisionsDiag_msgPrefix (color : Color) (n : Nat) (p : String) :
    ¬ IsNoSubdivisionsDiag color (msgPrefix color n p) := by
  rintro ⟨m, c, h⟩
  exact msgPrefix_ne_msgNoSubdivisions color n m p c h

/-- What lines 96-100 append is no country and no subdivision diagnostic. -/
theorem cidrErrors_kinds (color : Color) (n : Nat) (line : String) :
    ∀ msg ∈ cidrErrors color n line, ¬ IsCountryDiag color msg ∧
      ¬ IsSubdivisionDiag color msg ∧ ¬ IsNoSubdivisionsDiag color msg := by
  intro msg hmsg
  unfold cidrErrors at hmsg
  split at hmsg
  · simp at hmsg
  · rw [List.mem_singleton] at hmsg
    subst hmsg
    exact ⟨not_isCountryDiag_msgPrefix color n _, not_isSubdivisionDiag_msgPrefix color n _,
      not_isNoSubdivisionsDiag_msgPrefix color n _⟩

/-! ### What `genSubdivisionMap` stores under a key -/

theorem lookup_foldl_insert {V W : Type} (f : V → W) :
    ∀ (l : List (Sigma fun _ : String => V)) (acc : GoMap W), l.NodupKeys → ∀ c : String,
      (l.foldl (fun acc e => acc.insert e.1 (f e.2)) acc).lookup c =
        match List.dlookup c l with
        | some v => some (f v)
        | none => acc.lookup c := by
  intro l
  induction l with
  | nil => intro acc _ c; simp
  | cons e t ih =>
    intro acc hnd c
    obtain ⟨k, v⟩ := e
    have hk : k ∉ t.keys := (List.nodupKeys_cons.1 hnd).1
    have ht : t.NodupKeys := (List.nodupKeys_cons.1 hnd).2
    rw [List.foldl_cons, ih _ ht c]
    by_cases hc : c = k
    · subst hc
      have hnone : List.dlookup c t = none := List.dlookup_eq_none.2 hk
      simp [hnone, List.dlookup_cons_eq, AList.lookup_insert]
    · have hne : List.dlookup c (⟨k, v⟩ :: t) = List.dlookup c t :=
        List.dlookup_cons_ne t ⟨k, v⟩ hc
      rw [hne]
      cases hl : List.dlookup c t with
      | some w => rfl
      | none => simp [AList.lookup_insert_ne hc]

/-- The entry of `genSubdivisionMap` under a key is the code map of the list
the mapping holds under that key, and the key is absent when it is absent
there. -/
theorem lookup_genSubdivisionMap (subdivisions : SubdivisionMap) (c : String) :
    (genSubdivisionMap subdivisions).lookup c = (subdivisions.lookup c).map genSubMap := by
  unfold genSubdivisionMap
  rw [lookup_foldl_insert genSubMap subdivisions.entries ∅ subdivisions.nodupKeys c]
  unfold AList.lookup
  cases List.dlookup c subdivisions.entries with
  | some v => rfl
  | none => simp


/-! ## The claims about one line -/

/-- C1: a line whose record has at least 5 fields, whose field 0 is valid
CIDR notation, whose field 1 is in the country set and whose field 2 is empty
or in the subdivision set stored under field 1 gets no diagnostic, whatever
the line number, the country set and the subdivision index. -/
theorem valid_line_no_diagnostic (color : Color) (countryMap : GoMap Bool)
    (subdivisionMap : GoMap (GoMap Bool)) (n : Nat) (line : String)
    (hlen : 5 ≤ (recordOf line).length)
    (hcidr : ParseCIDR (fieldOf line 0) = true)
    (hcountry : countryMap.index (fieldOf line 1) = true)
    (hsub : fieldOf line 2 = "" ∨
      ∃ subMap, subdivisionMap.lookup (fieldOf line 1) = some subMap ∧
        subMap.has (fieldOf line 2) = true) :
    checkLine color countryMap subdivisionMap n line = [] := by
  cases hs : skipped line with
  | true => exact checkLine_of_skipped color countryMap subdivisionMap n line hs
  | false =>
    rw [checkLine_of_record color countryMap subdivisionMap n line hs hlen]
    have hc : cidrErrors color n line = [] := by simp [cidrErrors, hcidr]
    rcases hsub with h2 | ⟨subMap, hl, hh⟩
    · simp [hc, hcountry, h2]
    · simp [hc, hcountry, hl, hh]

/-- The first end-to-end scenario of the specification, as an instance of
C1. -/
theorem valid_line_no_diagnostic_witness :
    checkLine ansi (buildCountryMap sampleCountries) (genSubdivisionMap sampleSubdivisions) 1
      "203.0.113.0/24,US,US-CA,Los Angeles,90001" = [] :=
  valid_line_no_diagnostic ansi (buildCountryMap sampleCountries)
    (genSubdivisionMap sampleSubdivisions) 1 "203.0.113.0/24,US,US-CA,Los Angeles,90001"
    (by decide) (by decide) (by decide)
    (Or.inr ⟨genSubMap [⟨"California", "US-CA"⟩], by rfl, by decide⟩)

/-- C2: a line that is empty once leading and trailing white space is
stripped, or whose stripped form starts with `#`, gets no diagnostic, whatever
else it holds and whatever the country set and the subdivision index are. -/
theorem blank_or_comment_no_diagnostic (color : Color) (countryMap : GoMap Bool)
    (subdivisionMap : GoMap (GoMap Bool)) (n : Nat) (line : String)
    (h : TrimSpace line = "" ∨ HasPrefix (TrimSpace line) "#" = true) :
    checkLine color countryMap subdivisionMap n line = [] := by
  apply checkLine_of_skipped
  unfold skipped
  rcases h with h | h
  · simp [h]
  · simp [h]

/-- A comment whose text would be a record with a bad prefix and an unknown
country, as an instance of C2. -/
theorem blank_or_comment_no_diagnostic_witness :
    checkLine ansi (buildCountryMap sampleCountries) (genSubdivisionMap sampleSubdivisions) 7
      "  # not-a-prefix,ZZ,ZZ-1,\"city,x" = [] :=
  blank_or_comment_no_diagnostic ansi (buildCountryMap sampleCountries)
    (genSubdivisionMap sampleSubdivisions) 7 "  # not-a-prefix,ZZ,ZZ-1,\"city,x"
    (Or.inr (by decide))

/-- C3: a line that is neither blank nor a comment and whose record has fewer
than 5 fields gets exactly one diagnostic, the "invalid geofeed format" message
with the line's number; no prefix, country or subdivision diagnostic is among
the line's diagnostics, whatever the fields hold. -/
theorem short_record_one_diagnostic (color : Color) (countryMap : GoMap Bool)
    (subdivisionMap : GoMap (GoMap Bool)) (n : Nat) (line : String)
    (hs : skipped line = false) (hlen : (recordOf line).length < 5) :
    checkLine color countryMap subdivisionMap n line = [msgGeofeed color n] ∧
      ∀ msg ∈ checkLine color countryMap subdivisionMap n line,
        ¬ IsPrefixDiag color msg ∧ ¬ IsCountryDiag color msg ∧
        ¬ IsSubdivisionDiag color msg ∧ ¬ IsNoSubdivisionsDiag color msg := by
  have h := checkLine_of_short color countryMap subdivisionMap n line hs hlen
  refine ⟨h, ?_⟩
  intro msg hmsg
  rw [h, List.mem_singleton] at hmsg
  subst hmsg
  refine ⟨?_, ?_, ?_, ?_⟩
  · rintro ⟨m, p, e⟩
    exact msgGeofeed_ne_msgPrefix color n m p e
  · rintro ⟨m, c, e⟩
    exact msgGeofeed_ne_msgCountry color n m c e
  · rintro ⟨m, s, c, e⟩
    exact msgGeofeed_ne_msgSubdivision color n m s c e
  · rintro ⟨m, c, e⟩
    exact msgGeofeed_ne_msgNoSubdivisions color n m c e

/-- A record of four fields with a bad prefix and an unknown country, as an
instance of C3. -/
theorem short_record_one_diagnostic_witness :
    checkLine ansi (buildCountryMap sampleCountries) (genSubdivisionMap sampleSubdivisions) 3
      "not-a-prefix,ZZ,ZZ-1,City" = [msgGeofeed ansi 3] :=
  (short_record_one_diagnostic ansi (buildCountryMap sampleCountries)
    (genSubdivisionMap sampleSubdivisions) 3 "not-a-prefix,ZZ,ZZ-1,City"
    (by decide) (by decide)).1

/-- C4: a line read as a record of at least 5 fields whose field 0 is not
valid CIDR notation and whose field 1 is a non-empty code outside the country
set gets exactly two diagnostics: the "invalid prefix format" message naming
field 0, then the "invalid country code" message naming field 1. -/
theorem bad_cidr_and_country_two_diagnostics (color : Color) (countryMap : GoMap Bool)
    (subdivisionMap : GoMap (GoMap Bool)) (n : Nat) (line : String)
    (hs : skipped line = false) (hlen : 5 ≤ (recordOf line).length)
    (hcidr : ParseCIDR (fieldOf line 0) = false)
    (hne : fieldOf line 1 ≠ "")
    (hcountry : countryMap.index (fieldOf line 1) = false) :
    checkLine color countryMap subdivisionMap n line =
      [msgPrefix color n (fieldOf line 0), msgCountry color n (fieldOf line 1)] := by
  rw [checkLine_of_record color countryMap subdivisionMap n line hs hlen]
  simp [cidrErrors, hcidr, hne, hcountry]

/-- A line with a bad prefix and the unknown country `ZZ`, as an instance of
C4. -/
theorem bad_cidr_and_country_two_diagnostics_witness :
    checkLine ansi (buildCountryMap sampleCountries) (genSubdivisionMap sampleSubdivisions) 2
      "not-a-prefix,ZZ,ZZ-1,City,00000" =
      [msgPrefix ansi 2 (fieldOf "not-a-prefix,ZZ,ZZ-1,City,00000" 0),
        msgCountry ansi 2 (fieldOf "not-a-prefix,ZZ,ZZ-1,City,00000" 1)] :=
  bad_cidr_and_country_two_diagnostics ansi (buildCountryMap sampleCountries)
    (genSubdivisionMap sampleSubdivisions) 2 "not-a-prefix,ZZ,ZZ-1,City,00000"
    (by decide) (by decide) (by decide) (by decide) (by decide)

/-- C5: a line read as a record of at least 5 fields whose field 0 is not
valid CIDR notation, whose field 1 is in the country set and whose field 2 is
in the subdivision set stored under field 1 gets exactly one diagnostic, the
"invalid prefix format" message. -/
theorem bad_cidr_only_one_diagnostic (color : Color) (countryMap : GoMap Bool)
    (subdivisionMap : GoMap (GoMap Bool)) (n : Nat) (line : String)
    (hs : skipped line = false) (hlen : 5 ≤ (recordOf line).length)
    (hcidr : ParseCIDR (fieldOf line 0) = false)
    (hcountry : countryMap.index (fieldOf line 1) = true)
    (hsub : ∃ subMap, subdivisionMap.lookup (fieldOf line 1) = some subMap ∧
      subMap.has (fieldOf line 2) = true) :
    checkLine color countryMap subdivisionMap n line = [msgPrefix color n (fieldOf line 0)] := by
  rw [checkLine_of_record color countryMap subdivisionMap n line hs hlen]
  obtain ⟨subMap, hl, hh⟩ := hsub
  simp [cidrErrors, hcidr, hcountry, hl, hh]

/-- A line with a bad prefix, the country `US` and its subdivision `US-CA`, as
an instance of C5. -/
theorem bad_cidr_only_one_diagnostic_witness :
    checkLine ansi (buildCountryMap sampleCountries) (genSubdivisionMap sampleSubdivisions) 5
      "203.0.113.0/33,US,US-CA,Los Angeles,90001" =
      [msgPrefix ansi 5 (fieldOf "203.0.113.0/33,US,US-CA,Los Angeles,90001" 0)] :=
  bad_cidr_only_one_diagnostic ansi (buildCountryMap sampleCountries)
    (genSubdivisionMap sampleSubdivisions) 5 "203.0.113.0/33,US,US-CA,Los Angeles,90001"
    (by decide) (by decide) (by decide) (by decide)
    ⟨genSubMap [⟨"California", "US-CA"⟩], by rfl, by decide⟩


/-- The diagnostics of a line read as a record of at least 5 fields: what the
prefix check appends, then at most one message of the country and subdivision
checks. -/
theorem checkLine_record_shape (color : Color) (countryMap : GoMap Bool)
    (subdivisionMap : GoMap (GoMap Bool)) (n : Nat) (line : String)
    (hs : skipped line = false) (hlen : 5 ≤ (recordOf line).length) :
    ∃ tail, checkLine color countryMap subdivisionMap n line = cidrErrors color n line ++ tail ∧
      (tail = [] ∨ tail = [msgCountry color n (fieldOf line 1)] ∨
        tail = [msgSubdivision color n (fieldOf line 2) (fieldOf line 1)] ∨
        tail = [msgNoSubdivisions color n (fieldOf line 1)]) := by
  rw [checkLine_of_record color countryMap subdivisionMap n line hs hlen]
  split
  · exact ⟨[], by simp, Or.inl rfl⟩
  · split
    · exact ⟨_, rfl, Or.inr (Or.inl rfl)⟩
    · split
      · exact ⟨[], by simp, Or.inl rfl⟩
      · split
        · split
          · exact ⟨_, rfl, Or.inr (Or.inr (Or.inl rfl))⟩
          · exact ⟨[], by simp, Or.inl rfl⟩
        · exact ⟨_, rfl, Or.inr (Or.inr (Or.inr rfl))⟩

/-- C6 fails as stated: with the empty string in the country set, a line whose
field 1 is empty has a field 1 in the country set that is no key of the
subdivision index and a non-empty field 2, and gets no diagnostic at all. -/
theorem no_subdivisions_counterexample :
    skipped "192.0.2.0/24,,X-1,City,00000" = false ∧
    5 ≤ (recordOf "192.0.2.0/24,,X-1,City,00000").length ∧
    (buildCountryMap blankCodeCountries).index (fieldOf "192.0.2.0/24,,X-1,City,00000" 1) = true ∧
    (genSubdivisionMap sampleSubdivisions).lookup (fieldOf "192.0.2.0/24,,X-1,City,00000" 1)
      = none ∧
    fieldOf "192.0.2.0/24,,X-1,City,00000" 2 ≠ "" ∧
    checkSyntax ansi ["192.0.2.0/24,,X-1,City,00000"] (buildCountryMap blankCodeCountries)
      (genSubdivisionMap sampleSubdivisions) = [] := by
  refine ⟨by decide, by decide, by decide, by rfl, by decide, by decide⟩

/-- C6, amended by "field 1 is not empty": a line read as a record of at least
5 fields whose field 1 is a non-empty code in the country set but no key of
the subdivision index, and whose field 2 is not empty, gets the "no
subdivisions found for country" message as its last diagnostic, after the
prefix-format message if field 0 is not CIDR notation, and no "invalid
subdivision code" diagnostic. -/
theorem no_subdivisions_diagnostic (color : Color) (countryMap : GoMap Bool)
    (subdivisionMap : GoMap (GoMap Bool)) (n : Nat) (line : String)
    (hs : skipped line = false) (hlen : 5 ≤ (recordOf line).length)
    (hne : fieldOf line 1 ≠ "")
    (hcountry : countryMap.index (fieldOf line 1) = true)
    (hkey : subdivisionMap.lookup (fieldOf line 1) = none)
    (hsub : fieldOf line 2 ≠ "") :
    checkLine color countryMap subdivisionMap n line =
      (if ParseCIDR (fieldOf line 0) then [] else [msgPrefix color n (fieldOf line 0)]) ++
        [msgNoSubdivisions color n (fieldOf line 1)] ∧
    msgNoSubdivisions color n (fieldOf line 1) ∈ checkLine color countryMap subdivisionMap n line ∧
    ∀ msg ∈ checkLine color countryMap subdivisionMap n line, ¬ IsSubdivisionDiag color msg := by
  have h : checkLine color countryMap subdivisionMap n line =
      cidrErrors color n line ++ [msgNoSubdivisions color n (fieldOf line 1)] := by
    rw [checkLine_of_record color countryMap subdivisionMap n line hs hlen]
    simp [hne, hcountry, hkey, hsub]
  refine ⟨by rw [h]; rfl, by rw [h]; simp, ?_⟩
  intro msg hmsg
  rw [h, List.mem_append, List.mem_singleton] at hmsg
  rcases hmsg with hmsg | hmsg
  · exact (cidrErrors_kinds color n line msg hmsg).2.1
  · subst hmsg
    rintro ⟨m, s, c, e⟩
    exact msgSubdivision_ne_msgNoSubdivisions color m n s c _ e.symm

/-- A line whose country `CA` is in the country set but no key of the
subdivision index, as an instance of the amended C6. -/
theorem no_subdivisions_diagnostic_witness :
    msgNoSubdivisions ansi 4 (fieldOf "198.51.100.0/24,CA,CA-ON,Toronto,M5H" 1) ∈
      checkLine ansi (buildCountryMap sampleCountries) (genSubdivisionMap sampleSubdivisions) 4
        "198.51.100.0/24,CA,CA-ON,Toronto,M5H" :=
  (no_subdivisions_diagnostic ansi (buildCountryMap sampleCountries)
    (genSubdivisionMap sampleSubdivisions) 4 "198.51.100.0/24,CA,CA-ON,Toronto,M5H"
    (by decide) (by decide) (by decide) (by decide) (by rfl) (by decide)).2.1

/-- C7 fails as stated: `AQ` is a key of the subdivision mapping with an empty
list and `CA` is no key of it; a line for `AQ` with a subdivision code gets the
"invalid subdivision code" message, a line for `CA` the "no subdivisions found
for country" message, and the two messages differ. -/
theorem empty_subdivision_list_counterexample :
    sampleSubdivisions.lookup "AQ" = some [] ∧
    (buildCountryMap sampleCountries).index "AQ" = true ∧
    checkSyntax ansi ["192.0.2.0/24,AQ,AQ-XX,City,00000"] (buildCountryMap sampleCountries)
      (genSubdivisionMap sampleSubdivisions) = [msgSubdivision ansi 1 "AQ-XX" "AQ"] ∧
    msgSubdivision ansi 1 "AQ-XX" "AQ" ≠ msgNoSubdivisions ansi 1 "AQ" ∧
    sampleSubdivisions.lookup "CA" = none ∧
    checkSyntax ansi ["192.0.2.0/24,CA,CA-XX,City,00000"] (buildCountryMap sampleCountries)
      (genSubdivisionMap sampleSubdivisions) = [msgNoSubdivisions ansi 1 "CA"] := by
  refine ⟨by rfl, by decide, by decide, by decide, by rfl, by decide⟩

/-- C7, amended: a country key that is present in the subdivision mapping with
an empty list is not treated like an absent key. For a line read as a record
of at least 5 fields whose field 1 is a non-empty code in the country set with
the empty list as its entry, and whose field 2 is not empty, validation through
`genSubdivisionMap` and `checkSyntax` reports "invalid subdivision code (field
2) for country (field 1)" as the last diagnostic of the line, and no "no
subdivisions found for country" diagnostic. -/
theorem empty_subdivision_list_invalid_code (color : Color) (countryMap : GoMap Bool)
    (subdivisions : SubdivisionMap) (n : Nat) (line : String)
    (hs : skipped line = false) (hlen : 5 ≤ (recordOf line).length)
    (hne : fieldOf line 1 ≠ "")
    (hcountry : countryMap.index (fieldOf line 1) = true)
    (hempty : subdivisions.lookup (fieldOf line 1) = some [])
    (hsub : fieldOf line 2 ≠ "") :
    checkLine color countryMap (genSubdivisionMap subdivisions) n line =
      (if ParseCIDR (fieldOf line 0) then [] else [msgPrefix color n (fieldOf line 0)]) ++
        [msgSubdivision color n (fieldOf line 2) (fieldOf line 1)] ∧
    ∀ msg ∈ checkLine color countryMap (genSubdivisionMap subdivisions) n line,
      ¬ IsNoSubdivisionsDiag color msg := by
  have hl : (genSubdivisionMap subdivisions).lookup (fieldOf line 1) = some (genSubMap []) := by
    rw [lookup_genSubdivisionMap, hempty]
    rfl
  have hh : (genSubMap []).has (fieldOf line 2) = false := by
    simp [genSubMap, GoMap.has]
  have h : checkLine color countryMap (genSubdivisionMap subdivisions) n line =
      cidrErrors color n line ++ [msgSubdivision color n (fieldOf line 2) (fieldOf line 1)] := by
    rw [checkLine_of_record color countryMap _ n line hs hlen]
    simp [hne, hcountry, hsub, hl, hh]
  refine ⟨by rw [h]; rfl, ?_⟩
  intro msg hmsg
  rw [h, List.mem_append, List.mem_singleton] at hmsg
  rcases hmsg with hmsg | hmsg
  · exact (cidrErrors_kinds color n line msg hmsg).2.2
  · subst hmsg
    rintro ⟨m, c, e⟩
    exact msgSubdivision_ne_msgNoSubdivisions color n m _ _ c e

/-- A line for `AQ`, whose list of subdivisions is empty, as an instance of the
amended C7. -/
theorem empty_subdivision_list_invalid_code_witness :
    checkLine ansi (buildCountryMap sampleCountries) (genSubdivisionMap sampleSubdivisions) 6
      "192.0.2.0/24,AQ,AQ-XX,City,00000" =
      (if ParseCIDR (fieldOf "192.0.2.0/24,AQ,AQ-XX,City,00000" 0) then []
        else [msgPrefix ansi 6 (fieldOf "192.0.2.0/24,AQ,AQ-XX,City,00000" 0)]) ++
        [msgSubdivision ansi 6 (fieldOf "192.0.2.0/24,AQ,AQ-XX,City,00000" 2)
          (fieldOf "192.0.2.0/24,AQ,AQ-XX,City,00000" 1)] :=
  (empty_subdivision_list_invalid_code ansi (buildCountryMap sampleCountries)
    sampleSubdivisions 6 "192.0.2.0/24,AQ,AQ-XX,City,00000"
    (by decide) (by decide) (by decide) (by decide) (by rfl) (by decide)).1


/-- C8 fails as stated: with the empty string in the country set and a key of
the subdivision index, a line whose field 1 is empty and whose field 2 is a
code outside the set stored under that key gets no diagnostic at all. -/
theorem invalid_subdivision_counterexample :
    skipped "192.0.2.0/24,,X-2,City,00000" = false ∧
    5 ≤ (recordOf "192.0.2.0/24,,X-2,City,00000").length ∧
    (buildCountryMap blankCodeCountries).index (fieldOf "192.0.2.0/24,,X-2,City,00000" 1) = true ∧
    (genSubdivisionMap blankCodeSubdivisions).lookup (fieldOf "192.0.2.0/24,,X-2,City,00000" 1)
      = some (genSubMap [⟨"Nowhere", "X-1"⟩]) ∧
    fieldOf "192.0.2.0/24,,X-2,City,00000" 2 ≠ "" ∧
    (genSubMap [⟨"Nowhere", "X-1"⟩]).has (fieldOf "192.0.2.0/24,,X-2,City,00000" 2) = false ∧
    checkSyntax ansi ["192.0.2.0/24,,X-2,City,00000"] (buildCountryMap blankCodeCountries)
      (genSubdivisionMap blankCodeSubdivisions) = [] := by
  refine ⟨by decide, by decide, by decide, by rfl, by decide, by decide, by decide⟩

/-- C8, amended by "field 1 is not empty": a line read as a record of at least
5 fields whose field 1 is a non-empty code in the country set and a key of the
subdivision index, and whose field 2 is not empty and not in the subdivision
set stored under field 1, gets the "invalid subdivision code (field 2) for
country (field 1)" message as its last diagnostic; when field 0 is not CIDR
notation the line gets exactly two diagnostics, the prefix-format message and
then that one. -/
theorem invalid_subdivision_diagnostic (color : Color) (countryMap : GoMap Bool)
    (subdivisionMap : GoMap (GoMap Bool)) (subMap : GoMap Bool) (n : Nat) (line : String)
    (hs : skipped line = false) (hlen : 5 ≤ (recordOf line).length)
    (hne : fieldOf line 1 ≠ "")
    (hcountry : countryMap.index (fieldOf line 1) = true)
    (hkey : subdivisionMap.lookup (fieldOf line 1) = some subMap)
    (hsub : fieldOf line 2 ≠ "")
    (hmiss : subMap.has (fieldOf line 2) = false) :
    (checkLine color countryMap subdivisionMap n line).getLast? =
      some (msgSubdivision color n (fieldOf line 2) (fieldOf line 1)) ∧
    checkLine color countryMap subdivisionMap n line =
      (if ParseCIDR (fieldOf line 0) then [] else [msgPrefix color n (fieldOf line 0)]) ++
        [msgSubdivision color n (fieldOf line 2) (fieldOf line 1)] ∧
    (ParseCIDR (fieldOf line 0) = false →
      checkLine color countryMap subdivisionMap n line =
        [msgPrefix color n (fieldOf line 0),
          msgSubdivision color n (fieldOf line 2) (fieldOf line 1)]) := by
  have h : checkLine color countryMap subdivisionMap n line =
      cidrErrors color n line ++ [msgSubdivision color n (fieldOf line 2) (fieldOf line 1)] := by
    rw [checkLine_of_record color countryMap subdivisionMap n line hs hlen]
    simp [hne, hcountry, hkey, hsub, hmiss]
  refine ⟨by rw [h]; simp, by rw [h]; rfl, ?_⟩
  intro hcidr
  rw [h]
  simp [cidrErrors, hcidr]

/-- The third end-to-end scenario of the specification, as an instance of the
amended C8: two diagnostics, invalid prefix format and then invalid subdivision
code (US-XX) for country (US). -/
theorem invalid_subdivision_diagnostic_witness :
    checkLine ansi (buildCountryMap sampleCountries) (genSubdivisionMap sampleSubdivisions) 1
      "not-a-prefix,US,US-XX,City,00000" =
      [msgPrefix ansi 1 "not-a-prefix", msgSubdivision ansi 1 "US-XX" "US"] :=
  (invalid_subdivision_diagnostic ansi (buildCountryMap sampleCountries)
    (genSubdivisionMap sampleSubdivisions) (genSubMap [⟨"California", "US-CA"⟩]) 1
    "not-a-prefix,US,US-XX,City,00000"
    (by decide) (by decide) (by decide) (by decide) (by rfl) (by decide) (by decide)).2.2
    (by decide)

/-- C9: a line read as a record of at least 5 fields whose field 1 is the
empty string gets no country and no subdivision diagnostic, whatever field 2
holds; its diagnostics are exactly the prefix-format message when field 0 is
not valid CIDR notation, and nothing otherwise. -/
theorem blank_country_only_cidr_diagnostic (color : Color) (countryMap : GoMap Bool)
    (subdivisionMap : GoMap (GoMap Bool)) (n : Nat) (line : String)
    (hs : skipped line = false) (hlen : 5 ≤ (recordOf line).length)
    (hblank : fieldOf line 1 = "") :
    checkLine color countryMap subdivisionMap n line =
      (if ParseCIDR (fieldOf line 0) then [] else [msgPrefix color n (fieldOf line 0)]) ∧
    ∀ msg ∈ checkLine color countryMap subdivisionMap n line,
      ¬ IsCountryDiag color msg ∧ ¬ IsSubdivisionDiag color msg ∧
        ¬ IsNoSubdivisionsDiag color msg := by
  have h : checkLine color countryMap subdivisionMap n line = cidrErrors color n line := by
    rw [checkLine_of_record color countryMap subdivisionMap n line hs hlen]
    simp [hblank]
  refine ⟨by rw [h]; rfl, ?_⟩
  intro msg hmsg
  rw [h] at hmsg
  exact cidrErrors_kinds color n line msg hmsg

/-- A line with a bad prefix, no country code and a subdivision code that is in
no subdivision set, as an instance of C9. -/
theorem blank_country_only_cidr_diagnostic_witness :
    checkLine ansi (buildCountryMap sampleCountries) (genSubdivisionMap sampleSubdivisions) 8
      "not-a-prefix,,ZZ-1,City,00000" =
      (if ParseCIDR (fieldOf "not-a-prefix,,ZZ-1,City,00000" 0) then []
        else [msgPrefix ansi 8 (fieldOf "not-a-prefix,,ZZ-1,City,00000" 0)]) :=
  (blank_country_only_cidr_diagnostic ansi (buildCountryMap sampleCountries)
    (genSubdivisionMap sampleSubdivisions) 8 "not-a-prefix,,ZZ-1,City,00000"
    (by decide) (by decide) (by decide)).1

/-- C10: every line gets at most 2 diagnostics; when it gets 2, the first is
the prefix-format message for its field 0; and no line gets both an "invalid
country code" diagnostic and a subdivision diagnostic ("invalid subdivision
code" or "no subdivisions found for country"). -/
theorem at_most_two_diagnostics (color : Color) (countryMap : GoMap Bool)
    (subdivisionMap : GoMap (GoMap Bool)) (n : Nat) (line : String) :
    (checkLine color countryMap subdivisionMap n line).length ≤ 2 ∧
    ((checkLine color countryMap subdivisionMap n line).length = 2 →
      (checkLine color countryMap subdivisionMap n line).head? =
        some (msgPrefix color n (fieldOf line 0))) ∧
    ¬ ((∃ msg ∈ checkLine color countryMap subdivisionMap n line, IsCountryDiag color msg) ∧
      (∃ msg ∈ checkLine color countryMap subdivisionMap n line,
        IsSubdivisionDiag color msg ∨ IsNoSubdivisionsDiag color msg)) := by
  cases hs : skipped line with
  | true =>
    rw [checkLine_of_skipped color countryMap subdivisionMap n line hs]
    simp
  | false =>
    by_cases hlen : (recordOf line).length < 5
    · rw [checkLine_of_short color countryMap subdivisionMap n line hs hlen]
      refine ⟨by simp, by simp, ?_⟩
      rintro ⟨⟨msg, hmsg, m, c, e⟩, _⟩
      rw [List.mem_singleton] at hmsg
      subst hmsg
      exact msgGeofeed_ne_msgCountry color n m c e
    · obtain ⟨tail, h, htail⟩ := checkLine_record_shape color countryMap subdivisionMap n line hs
        (by omega)
      rw [h]
      have hk := cidrErrors_kinds color n line
      have hc : cidrErrors color n line = [] ∨
          cidrErrors color n line = [msgPrefix color n (fieldOf line 0)] := by
        unfold cidrErrors
        split
        · exact Or.inl rfl
        · exact Or.inr rfl
      refine ⟨?_, ?_, ?_⟩
      · rcases hc with hc | hc <;> rcases htail with rfl | rfl | rfl | rfl <;> simp [hc]
      · rcases hc with hc | hc <;> rcases htail with rfl | rfl | rfl | rfl <;> simp [hc]
      · rintro ⟨⟨a, ha, hca⟩, b, hb, hsb⟩
        rw [List.mem_append] at ha hb
        rcases ha with ha | ha
        · exact (hk a ha).1 hca
        rcases hb with hb | hb
        · rcases hsb with hsb | hsb
          · exact (hk b hb).2.1 hsb
          · exact (hk b hb).2.2 hsb
        rcases htail with rfl | rfl | rfl | rfl
        · simp at ha
        · rw [List.mem_singleton] at hb
          subst hb
          rcases hsb with ⟨m, s, c, e⟩ | ⟨m, c, e⟩
          · exact msgCountry_ne_msgSubdivision color n m _ s c e
          · exact msgCountry_ne_msgNoSubdivisions color n m _ c e
        · rw [List.mem_singleton] at ha
          subst ha
          obtain ⟨m, c, e⟩ := hca
          exact msgCountry_ne_msgSubdivision color m n c _ _ e.symm
        · rw [List.mem_singleton] at ha
          subst ha
          obtain ⟨m, c, e⟩ := hca
          exact msgCountry_ne_msgNoSubdivisions color m n c _ e.symm

/-! ### The line number a message carries -/

theorem digitChar_isDigit (d : Nat) (h : d < 10) :
    isDigit (Nat.digitChar d) = true ∧ (Nat.digitChar d).toNat - 48 = d := by
  interval_cases d <;> decide

theorem toDigitsCore_isDigit (fuel : Nat) : ∀ (n : Nat) (ds : List Char),
    (∀ c ∈ ds, isDigit c = true) → ∀ c ∈ Nat.toDigitsCore 10 fuel n ds, isDigit c = true := by
  induction fuel with
  | zero => intro n ds hds c hc; exact hds c (by simpa [Nat.toDigitsCore] using hc)
  | succ fuel ih =>
    intro n ds hds c hc
    have hd := (digitChar_isDigit (n % 10) (Nat.mod_lt _ (by decide))).1
    have hds2 : ∀ c ∈ Nat.digitChar (n % 10) :: ds, isDigit c = true := by
      intro c hc
      rcases List.mem_cons.1 hc with rfl | hc
      · exact hd
      · exact hds c hc
    unfold Nat.toDigitsCore at hc
    by_cases h0 : n / 10 = 0
    · simp only [h0, if_true] at hc
      exact hds2 c hc
    · simp only [h0, if_false] at hc
      exact ih _ _ hds2 c hc

theorem toDigitsCore_ne_nil (fuel : Nat) : ∀ (n : Nat) (ds : List Char),
    (fuel = 0 → ds ≠ []) → Nat.toDigitsCore 10 fuel n ds ≠ [] := by
  induction fuel with
  | zero => intro n ds h; simpa [Nat.toDigitsCore] using h rfl
  | succ fuel ih =>
    intro n ds _
    unfold Nat.toDigitsCore
    by_cases h0 : n / 10 = 0
    · simp [h0]
    · simp only [h0, if_false]
      exact ih _ _ (fun _ => by simp)

theorem parseDigits_toDigitsCore (fuel : Nat) : ∀ (n : Nat) (ds : List Char), n < fuel →
    (Nat.toDigitsCore 10 fuel n ds).foldl (fun a c => a * 10 + (c.toNat - 48)) 0 =
      ds.foldl (fun a c => a * 10 + (c.toNat - 48)) n := by
  induction fuel with
  | zero => intro n ds h; omega
  | succ fuel ih =>
    intro n ds hn
    have hd := (digitChar_isDigit (n % 10) (Nat.mod_lt _ (by decide))).2
    unfold Nat.toDigitsCore
    by_cases h0 : n / 10 = 0
    · have hlt : n % 10 = n := by omega
      simp only [h0, if_true, List.foldl_cons, hd]
      rw [hlt]
      simp
    · simp only [h0, if_false]
      rw [ih (n / 10) _ (by omega)]
      simp only [List.foldl_cons, hd]
      congr 1
      omega

theorem repr_isDigit (n : Nat) : ∀ c ∈ (toString n).data, isDigit c = true := by
  intro c hc
  have : (toString n).data = Nat.toDigits 10 n := rfl
  rw [this] at hc
  exact toDigitsCore_isDigit _ _ _ (by simp) c hc

theorem repr_ne_nil (n : Nat) : (toString n).data ≠ [] := by
  have : (toString n).data = Nat.toDigits 10 n := rfl
  rw [this]
  exact toDigitsCore_ne_nil _ _ _ (by simp)

theorem parseDigits_repr (n : Nat) : parseDigits (toString n).data = n := by
  have : (toString n).data = Nat.toDigits 10 n := rfl
  rw [this]
  unfold parseDigits Nat.toDigits
  rw [parseDigits_toDigitsCore (n + 1) n [] (by omega)]
  rfl

theorem takeWhile_isDigit_repr (n : Nat) (rest : List Char) :
    ((toString n).data ++ ':' :: rest).takeWhile isDigit = (toString n).data := by
  rw [List.takeWhile_append_of_pos (repr_isDigit n)]
  simp [List.takeWhile, isDigit]

/-- A text that starts with `Line `, a decimal number and a colon carries that
number. -/
theorem lineNumberOf_line (n : Nat) (rest : List Char) :
    lineNumberOf ⟨"Line ".data ++ ((toString n).data ++ ':' :: rest)⟩ = some n := by
  have h : (String.mk ("Line ".data ++ ((toString n).data ++ ':' :: rest))).data =
      'L' :: 'i' :: 'n' :: 'e' :: ' ' :: ((toString n).data ++ ':' :: rest) := rfl
  unfold lineNumberOf
  rw [h]
  simp only [takeWhile_isDigit_repr, repr_ne_nil, if_false, parseDigits_repr]

/-- Raising the number of such a text by `k` rewrites the number and keeps the
rest. -/
theorem shiftLine_line (k n : Nat) (rest : List Char) :
    shiftLine k ⟨"Line ".data ++ ((toString n).data ++ ':' :: rest)⟩ =
      ⟨"Line ".data ++ ((toString (n + k)).data ++ ':' :: rest)⟩ := by
  have h : (String.mk ("Line ".data ++ ((toString n).data ++ ':' :: rest))).data =
      'L' :: 'i' :: 'n' :: 'e' :: ' ' :: ((toString n).data ++ ':' :: rest) := rfl
  unfold shiftLine
  rw [h]
  simp only [takeWhile_isDigit_repr, repr_ne_nil, if_false, parseDigits_repr]
  simp

theorem lineNumberOf_lineMsg (n : Nat) (rest : List Char) :
    lineNumberOf (lineMsg n rest) = some n :=
  lineNumberOf_line n rest

theorem shiftLine_lineMsg (k n : Nat) (rest : List Char) :
    shiftLine k (lineMsg n rest) = lineMsg (n + k) rest :=
  shiftLine_line k n rest

theorem msgGeofeed_eq_lineMsg (color : Color) (n : Nat) :
    msgGeofeed color n = lineMsg n (" invalid ".data ++ color.Magenta.data ++
      "geofeed ".data ++ color.Reset.data ++ "format".data) := by
  apply String.ext
  simp [msgGeofeed, lineMsg, String.data_append]

theorem msgPrefix_eq_lineMsg (color : Color) (n : Nat) (p : String) :
    msgPrefix color n p = lineMsg n (" invalid ".data ++ color.Magenta.data ++
      "prefix ".data ++ color.Reset.data ++ "format (".data ++ color.Cyan.data ++ p.data ++
      color.Reset.data ++ ")".data) := by
  apply String.ext
  simp [msgPrefix, lineMsg, String.data_append]

theorem msgCountry_eq_lineMsg (color : Color) (n : Nat) (c : String) :
    msgCountry color n c = lineMsg n (" invalid ".data ++ color.Magenta.data ++
      "country code ".data ++ color.Reset.data ++ "(".data ++ color.Cyan.data ++ c.data ++
      color.Reset.data ++ ")".data) := by
  apply String.ext
  simp [msgCountry, lineMsg, String.data_append]

theorem msgSubdivision_eq_lineMsg (color : Color) (n : Nat) (s c : String) :
    msgSubdivision color n s c = lineMsg n (" invalid ".data ++ color.Magenta.data ++
      "subdivision code ".data ++ color.Reset.data ++ "(".data ++ color.Cyan.data ++ s.data ++
      color.Reset.data ++ ") ".data ++ "for country (".data ++ color.Cyan.data ++ c.data ++
      color.Reset.data ++ ")".data) := by
  apply String.ext
  simp [msgSubdivision, lineMsg, String.data_append]

theorem msgNoSubdivisions_eq_lineMsg (color : Color) (n : Nat) (c : String) :
    msgNoSubdivisions color n c = lineMsg n (" no subdivisions found for country (".data ++
      color.Cyan.data ++ c.data ++ color.Reset.data ++ ")".data) := by
  apply String.ext
  simp [msgNoSubdivisions, lineMsg, String.data_append]

theorem lineNumberOf_msgGeofeed (color : Color) (n : Nat) :
    lineNumberOf (msgGeofeed color n) = some n := by
  rw [msgGeofeed_eq_lineMsg, lineNumberOf_lineMsg]

theorem lineNumberOf_msgPrefix (color : Color) (n : Nat) (p : String) :
    lineNumberOf (msgPrefix color n p) = some n := by
  rw [msgPrefix_eq_lineMsg, lineNumberOf_lineMsg]

theorem lineNumberOf_msgCountry (color : Color) (n : Nat) (c : String) :
    lineNumberOf (msgCountry color n c) = some n := by
  rw [msgCountry_eq_lineMsg, lineNumberOf_lineMsg]

theorem lineNumberOf_msgSubdivision (color : Color) (n : Nat) (s c : String) :
    lineNumberOf (msgSubdivision color n s c) = some n := by
  rw [msgSubdivision_eq_lineMsg, lineNumberOf_lineMsg]

theorem lineNumberOf_msgNoSubdivisions (color : Color) (n : Nat) (c : String) :
    lineNumberOf (msgNoSubdivisions color n c) = some n := by
  rw [msgNoSubdivisions_eq_lineMsg, lineNumberOf_lineMsg]

theorem shiftLine_msgGeofeed (color : Color) (k n : Nat) :
    shiftLine k (msgGeofeed color n) = msgGeofeed color (n + k) := by
  rw [msgGeofeed_eq_lineMsg, msgGeofeed_eq_lineMsg, shiftLine_lineMsg]

theorem shiftLine_msgPrefix (color : Color) (k n : Nat) (p : String) :
    shiftLine k (msgPrefix color n p) = msgPrefix color (n + k) p := by
  rw [msgPrefix_eq_lineMsg, msgPrefix_eq_lineMsg, shiftLine_lineMsg]

theorem shiftLine_msgCountry (color : Color) (k n : Nat) (c : String) :
    shiftLine k (msgCountry color n c) = msgCountry color (n + k) c := by
  rw [msgCountry_eq_lineMsg, msgCountry_eq_lineMsg, shiftLine_lineMsg]

theorem shiftLine_msgSubdivision (color : Color) (k n : Nat) (s c : String) :
    shiftLine k (msgSubdivision color n s c) = msgSubdivision color (n + k) s c := by
  rw [msgSubdivision_eq_lineMsg, msgSubdivision_eq_lineMsg, shiftLine_lineMsg]

theorem shiftLine_msgNoSubdivisions (color : Color) (k n : Nat) (c : String) :
    shiftLine k (msgNoSubdivisions color n c) = msgNoSubdivisions color (n + k) c := by
  rw [msgNoSubdivisions_eq_lineMsg, msgNoSubdivisions_eq_lineMsg, shiftLine_lineMsg]

/-- Every diagnostic the loop body appends for line `n` carries the number
`n`. -/
theorem lineNumberOf_of_mem_checkLine (color : Color) (countryMap : GoMap Bool)
    (subdivisionMap : GoMap (GoMap Bool)) (n : Nat) (line msg : String)
    (hmsg : msg ∈ checkLine color countryMap subdivisionMap n line) :
    lineNumberOf msg = some n := by
  cases hs : skipped line with
  | true =>
    rw [checkLine_of_skipped color countryMap subdivisionMap n line hs] at hmsg
    simp at hmsg
  | false =>
    by_cases hlen : (recordOf line).length < 5
    · rw [checkLine_of_short color countryMap subdivisionMap n line hs hlen,
        List.mem_singleton] at hmsg
      rw [hmsg, lineNumberOf_msgGeofeed]
    · obtain ⟨tail, h, htail⟩ := checkLine_record_shape color countryMap subdivisionMap n line hs
        (by omega)
      rw [h, List.mem_append] at hmsg
      rcases hmsg with hmsg | hmsg
      · unfold cidrErrors at hmsg
        split at hmsg
        · simp at hmsg
        · rw [List.mem_singleton] at hmsg
          rw [hmsg, lineNumberOf_msgPrefix]
      · rcases htail with rfl | rfl | rfl | rfl
        · simp at hmsg
        · rw [List.mem_singleton] at hmsg
          rw [hmsg, lineNumberOf_msgCountry]
        · rw [List.mem_singleton] at hmsg
          rw [hmsg, lineNumberOf_msgSubdivision]
        · rw [List.mem_singleton] at hmsg
          rw [hmsg, lineNumberOf_msgNoSubdivisions]

/-- The diagnostics of a line under the number `n + k` are its diagnostics
under the number `n` with the number raised by `k`. -/
theorem checkLine_shift (color : Color) (countryMap : GoMap Bool)
    (subdivisionMap : GoMap (GoMap Bool)) (n k : Nat) (line : String) :
    checkLine color countryMap subdivisionMap (n + k) line =
      (checkLine color countryMap subdivisionMap n line).map (shiftLine k) := by
  cases hs : skipped line with
  | true =>
    rw [checkLine_of_skipped color countryMap subdivisionMap n line hs,
      checkLine_of_skipped color countryMap subdivisionMap (n + k) line hs]
    rfl
  | false =>
    by_cases hlen : (recordOf line).length < 5
    · rw [checkLine_of_short color countryMap subdivisionMap n line hs hlen,
        checkLine_of_short color countryMap subdivisionMap (n + k) line hs hlen]
      simp [shiftLine_msgGeofeed]
    · have hc : cidrErrors color (n + k) line = (cidrErrors color n line).map (shiftLine k) := by
        unfold cidrErrors
        split <;> simp [shiftLine_msgPrefix]
      rw [checkLine_of_record color countryMap subdivisionMap n line hs (by omega),
        checkLine_of_record color countryMap subdivisionMap (n + k) line hs (by omega)]
      split
      · exact hc
      · split
        · simp [hc, shiftLine_msgCountry]
        · split
          · exact hc
          · split
            · split
              · simp [hc, shiftLine_msgSubdivision]
              · exact hc
            · simp [hc, shiftLine_msgNoSubdivisions]

/-! ### Where the diagnostics of `checkSyntax` come from -/

theorem checkSyntaxLoop_cons (color : Color) (countryMap : GoMap Bool)
    (subdivisionMap : GoMap (GoMap Bool)) (line : String) (scanner : List String) (k : Nat) :
    checkSyntaxLoop color countryMap subdivisionMap (line :: scanner) k [] =
      checkLine color countryMap subdivisionMap (k + 1) line ++
        checkSyntaxLoop color countryMap subdivisionMap scanner (k + 1) [] := by
  rw [checkSyntaxLoop, checkSyntaxLoop_acc]
  simp

theorem checkSyntaxLoop_eq_flatMap (color : Color) (countryMap : GoMap Bool)
    (subdivisionMap : GoMap (GoMap Bool)) :
    ∀ (scanner : List String) (k : Nat),
      checkSyntaxLoop color countryMap subdivisionMap scanner k [] =
        (scanner.enumFrom (k + 1)).flatMap
          (fun p => checkLine color countryMap subdivisionMap p.1 p.2) := by
  intro scanner
  induction scanner with
  | nil => intro k; simp [checkSyntaxLoop]
  | cons line rest ih =>
    intro k
    rw [checkSyntaxLoop_cons, ih (k + 1)]
    simp [List.enumFrom, List.flatMap_cons]

theorem mem_checkSyntaxLoop (color : Color) (countryMap : GoMap Bool)
    (subdivisionMap : GoMap (GoMap Bool)) :
    ∀ (scanner : List String) (k : Nat) (msg : String),
      msg ∈ checkSyntaxLoop color countryMap subdivisionMap scanner k [] →
      ∃ i line, scanner[i]? = some line ∧
        msg ∈ checkLine color countryMap subdivisionMap (k + i + 1) line := by
  intro scanner
  induction scanner with
  | nil => intro k msg h; simp [checkSyntaxLoop] at h
  | cons l rest ih =>
    intro k msg h
    rw [checkSyntaxLoop_cons, List.mem_append] at h
    rcases h with h | h
    · exact ⟨0, l, by simp, by simpa using h⟩
    · obtain ⟨i, line, hi, hm⟩ := ih (k + 1) msg h
      refine ⟨i + 1, line, by simpa using hi, ?_⟩
      have e : k + (i + 1) + 1 = k + 1 + i + 1 := by omega
      rw [e]
      exact hm

theorem lineNumbers_checkSyntaxLoop (color : Color) (countryMap : GoMap Bool)
    (subdivisionMap : GoMap (GoMap Bool)) :
    ∀ (scanner : List String) (k : Nat),
      ∃ ns : List Nat,
        (checkSyntaxLoop color countryMap subdivisionMap scanner k []).map lineNumberOf =
          ns.map some ∧
        ns.Pairwise (· ≤ ·) ∧ ∀ n ∈ ns, k < n ∧ n ≤ k + scanner.length := by
  intro scanner
  induction scanner with
  | nil => intro k; exact ⟨[], by simp [checkSyntaxLoop], List.Pairwise.nil, by simp⟩
  | cons l rest ih =>
    intro k
    obtain ⟨ns, hmap, hsorted, hbound⟩ := ih (k + 1)
    refine ⟨List.replicate (checkLine color countryMap subdivisionMap (k + 1) l).length (k + 1)
      ++ ns, ?_, ?_, ?_⟩
    · rw [checkSyntaxLoop_cons, List.map_append, List.map_append, hmap]
      congr 1
      apply List.ext_getElem
      · simp
      · intro i h1 h2
        simp only [List.getElem_map, List.getElem_replicate]
        exact lineNumberOf_of_mem_checkLine color countryMap subdivisionMap (k + 1) l _
          (List.getElem_mem _)
    · rw [List.pairwise_append]
      refine ⟨?_, hsorted, ?_⟩
      · rw [List.pairwise_replicate]
        exact Or.inr (Nat.le_refl _)
      · intro a ha b hb
        rw [List.mem_replicate] at ha
        have := (hbound b hb).1
        omega
    · intro n hn
      rw [List.mem_append] at hn
      rcases hn with hn | hn
      · rw [List.mem_replicate] at hn
        simp only [List.length_cons]
        omega
      · have := hbound n hn
        simp only [List.length_cons]
        omega

/-- C11: the output of `checkSyntax` is, line after line with the lines
numbered from 1 (blank and comment lines counted), what the loop body appends
for each line; every diagnostic comes from the line at the 1-based position `n`
that it carries as its line number, with `1 ≤ n ≤` the number of lines; the
line numbers of the output are non-decreasing; and a defect on the third line,
after a blank line and a comment, is reported as line 3. -/
theorem diagnostics_carry_line_position (color : Color) (countryMap : GoMap Bool)
    (subdivisionMap : GoMap (GoMap Bool)) (scanner : List String) :
    checkSyntax color scanner countryMap subdivisionMap =
      (scanner.enumFrom 1).flatMap (fun p => checkLine color countryMap subdivisionMap p.1 p.2) ∧
    (∀ msg ∈ checkSyntax color scanner countryMap subdivisionMap,
      ∃ n line, 1 ≤ n ∧ n ≤ scanner.length ∧ scanner[n - 1]? = some line ∧
        msg ∈ checkLine color countryMap subdivisionMap n line ∧ lineNumberOf msg = some n) ∧
    (∃ ns : List Nat,
      (checkSyntax color scanner countryMap subdivisionMap).map lineNumberOf = ns.map some ∧
      ns.Pairwise (· ≤ ·) ∧ ∀ n ∈ ns, 1 ≤ n ∧ n ≤ scanner.length) ∧
    (checkSyntax ansi ["", "# comment", "not-a-prefix,US,US-XX,City,00000"]
      (buildCountryMap sampleCountries) (genSubdivisionMap sampleSubdivisions)).map lineNumberOf =
      [some 3, some 3] := by
  refine ⟨?_, ?_, ?_, by decide⟩
  · exact checkSyntaxLoop_eq_flatMap color countryMap subdivisionMap scanner 0
  · intro msg hmsg
    obtain ⟨i, line, hi, hm⟩ := mem_checkSyntaxLoop color countryMap subdivisionMap scanner 0 msg hmsg
    have hlt : i < scanner.length := by
      by_contra hge
      rw [List.getElem?_eq_none (by omega)] at hi
      cases hi
    refine ⟨i + 1, line, by omega, by omega, by simpa using hi, ?_, ?_⟩
    · simpa using hm
    · exact lineNumberOf_of_mem_checkLine color countryMap subdivisionMap (i + 1) line msg
        (by simpa using hm)
  · obtain ⟨ns, hmap, hsorted, hbound⟩ :=
      lineNumbers_checkSyntaxLoop color countryMap subdivisionMap scanner 0
    refine ⟨ns, hmap, hsorted, ?_⟩
    intro n hn
    have := hbound n hn
    omega

/-! ### Maps built by inserting `true` under the codes of a list -/

theorem lookup_foldl_insert_true {α : Type} (key : α → String) :
    ∀ (l : List α) (acc : GoMap Bool) (c : String),
      ((∃ x ∈ l, key x = c) →
        (l.foldl (fun m x => m.insert (key x) true) acc).lookup c = some true) ∧
      ((¬ ∃ x ∈ l, key x = c) →
        (l.foldl (fun m x => m.insert (key x) true) acc).lookup c = acc.lookup c) := by
  intro l
  induction l with
  | nil => intro acc c; simp
  | cons a t ih =>
    intro acc c
    rw [List.foldl_cons]
    obtain ⟨ih1, ih2⟩ := ih (acc.insert (key a) true) c
    constructor
    · rintro ⟨x, hx, hxc⟩
      by_cases ht : ∃ y ∈ t, key y = c
      · exact ih1 ht
      · rw [ih2 ht]
        rcases List.mem_cons.1 hx with rfl | hx
        · rw [← hxc, AList.lookup_insert]
        · exact absurd ⟨x, hx, hxc⟩ ht
    · intro hne
      have ht : ¬ ∃ y ∈ t, key y = c := fun ⟨y, hy, hyc⟩ => hne ⟨y, List.mem_cons_of_mem _ hy, hyc⟩
      have hac : c ≠ key a := fun h => hne ⟨a, List.mem_cons_self _ _, h.symm⟩
      rw [ih2 ht, AList.lookup_insert_ne hac]

/-- The country map of `Execute` answers `true` exactly for the codes of the
list. -/
theorem index_buildCountryMap (countries : List Country) (c : String) :
    (buildCountryMap countries).index c = true ↔ ∃ x ∈ countries, x.Code = c := by
  obtain ⟨h1, h2⟩ := lookup_foldl_insert_true Country.Code countries ∅ c
  unfold GoMap.index buildCountryMap
  by_cases h : ∃ x ∈ countries, x.Code = c
  · simp [h1 h, h]
  · rw [h2 h]
    simp [h]

/-- The code map of a subdivision list holds exactly the codes of the list,
each with the value `true`. -/
theorem lookup_genSubMap (subs : List Subdivision) (s : String) :
    ((∃ sub ∈ subs, sub.Code = s) → (genSubMap subs).lookup s = some true) ∧
    ((¬ ∃ sub ∈ subs, sub.Code = s) → (genSubMap subs).lookup s = none) := by
  obtain ⟨h1, h2⟩ := lookup_foldl_insert_true Subdivision.Code subs ∅ s
  exact ⟨h1, fun h => by rw [genSubMap, h2 h]; simp⟩

theorem has_genSubMap (subs : List Subdivision) (s : String) :
    (genSubMap subs).has s = true ↔ ∃ sub ∈ subs, sub.Code = s := by
  obtain ⟨h1, h2⟩ := lookup_genSubMap subs s
  unfold GoMap.has
  by_cases h : ∃ sub ∈ subs, sub.Code = s
  · simp [h1 h, h]
  · simp [h2 h, h]

/-- The loop body looks at the country map only through `countryMap[code]`. -/
theorem checkLine_congr_index (color : Color) (countryMap countryMap2 : GoMap Bool)
    (subdivisionMap : GoMap (GoMap Bool)) (n : Nat) (line : String)
    (h : ∀ c, countryMap.index c = countryMap2.index c) :
    checkLine color countryMap subdivisionMap n line =
      checkLine color countryMap2 subdivisionMap n line := by
  unfold checkLine
  simp only [h]

theorem mem_dedupCodes (countries : List Country) (c : String) :
    (∃ x ∈ dedupCodes countries, x.Code = c) ↔ ∃ x ∈ countries, x.Code = c := by
  induction countries with
  | nil => simp [dedupCodes]
  | cons a t ih =>
    simp only [dedupCodes, List.mem_cons, List.mem_filter, decide_eq_true_eq]
    constructor
    · rintro ⟨x, hx | ⟨hx, _⟩, hxc⟩
      · exact ⟨x, Or.inl hx, hxc⟩
      · obtain ⟨y, hy, hyc⟩ := ih.1 ⟨x, hx, hxc⟩
        exact ⟨y, Or.inr hy, hyc⟩
    · rintro ⟨x, hx | hx, hxc⟩
      · exact ⟨x, Or.inl hx, hxc⟩
      · by_cases hac : a.Code = c
        · exact ⟨a, Or.inl rfl, hac⟩
        · obtain ⟨y, hy, hyc⟩ := ih.2 ⟨x, hx, hxc⟩
          exact ⟨y, Or.inr ⟨hy, by rw [hyc]; exact fun h => hac h.symm⟩, hyc⟩

theorem nodup_dedupCodes (countries : List Country) :
    ((dedupCodes countries).map Country.Code).Nodup := by
  induction countries with
  | nil => simp [dedupCodes]
  | cons a t ih =>
    simp only [dedupCodes, List.map_cons, List.nodup_cons, List.mem_map, List.mem_filter,
      decide_eq_true_eq]
    refine ⟨?_, ?_⟩
    · rintro ⟨x, ⟨_, hne⟩, hx⟩
      exact hne hx
    · exact (List.Nodup.sublist ((List.filter_sublist _).map _) ih)

/-! ## The claims about whole inputs, the tables and the command line -/

/-- C12 fails as stated: with the colour constants that `validator.go`
declares, the one diagnostic for `203.0.113.0/24,ZZ,,,` holds the escape
sequences of the colours and is not the plain text of the specification. -/
theorem unknown_country_text_counterexample :
    (buildCountryMap sampleCountries).index "ZZ" = false ∧
    checkSyntax ansi ["203.0.113.0/24,ZZ,,,"] (buildCountryMap sampleCountries)
      (genSubdivisionMap sampleSubdivisions) =
      ["Line 1: invalid \x1b[35mcountry code \x1b[0m(\x1b[36mZZ\x1b[0m)"] ∧
    "Line 1: invalid \x1b[35mcountry code \x1b[0m(\x1b[36mZZ\x1b[0m)" ≠
      "Line 1: invalid country code (ZZ)" := by
  refine ⟨by decide, by decide, by decide⟩

/-- C12, amended: for every country set without `ZZ`, the one-line input
`203.0.113.0/24,ZZ,,,` gets exactly one diagnostic; its text is `Line 1:
invalid country code (ZZ)` with the colour constants spliced in before `country
code`, before `(`, before `ZZ` and before `)`, and it is that plain text exactly
when the three constants are empty. -/
theorem unknown_country_one_diagnostic (color : Color) (countryMap : GoMap Bool)
    (subdivisionMap : GoMap (GoMap Bool)) (h : countryMap.index "ZZ" = false) :
    checkSyntax color ["203.0.113.0/24,ZZ,,,"] countryMap subdivisionMap =
      ["Line 1: invalid " ++ color.Magenta ++ "country code " ++ color.Reset ++ "(" ++
        color.Cyan ++ "ZZ" ++ color.Reset ++ ")"] ∧
    ("Line 1: invalid " ++ color.Magenta ++ "country code " ++ color.Reset ++ "(" ++
        color.Cyan ++ "ZZ" ++ color.Reset ++ ")" = "Line 1: invalid country code (ZZ)" ↔
      color.Magenta = "" ∧ color.Reset = "" ∧ color.Cyan = "") := by
  constructor
  · have hs : skipped "203.0.113.0/24,ZZ,,," = false := by decide
    have hlen : 5 ≤ (recordOf "203.0.113.0/24,ZZ,,,").length := by decide
    have h0 : fieldOf "203.0.113.0/24,ZZ,,," 0 = "203.0.113.0/24" := by decide
    have h1 : fieldOf "203.0.113.0/24,ZZ,,," 1 = "ZZ" := by decide
    have hc : ParseCIDR "203.0.113.0/24" = true := by decide
    rw [checkSyntax_singleton, checkLine_of_record color countryMap subdivisionMap 1 _ hs hlen]
    simp only [h1, h, cidrErrors, h0, hc]
    rfl
  · constructor
    · intro e
      have hl := congrArg (fun s : String => s.data.length) e
      simp only [String.data_append, List.length_append] at hl
      have e1 : "Line 1: invalid ".data.length = 16 := rfl
      have e2 : "country code ".data.length = 13 := rfl
      have e3 : "(".data.length = 1 := rfl
      have e4 : "ZZ".data.length = 2 := rfl
      have e5 : ")".data.length = 1 := rfl
      have e6 : "Line 1: invalid country code (ZZ)".data.length = 33 := rfl
      rw [e1, e2, e3, e4, e5, e6] at hl
      have empty_of : ∀ s : String, s.data.length = 0 → s = "" := by
        intro s hs
        apply String.ext
        exact List.eq_nil_of_length_eq_zero hs
      exact ⟨empty_of _ (by omega), empty_of _ (by omega), empty_of _ (by omega)⟩
    · rintro ⟨hm, hr, hcy⟩
      rw [hm, hr, hcy]
      decide

/-- The second end-to-end scenario with the colours of `validator.go`, as an
instance of the amended C12. -/
theorem unknown_country_one_diagnostic_witness :
    checkSyntax ansi ["203.0.113.0/24,ZZ,,,"] (buildCountryMap sampleCountries)
      (genSubdivisionMap sampleSubdivisions) =
      ["Line 1: invalid " ++ ansi.Magenta ++ "country code " ++ ansi.Reset ++ "(" ++
        ansi.Cyan ++ "ZZ" ++ ansi.Reset ++ ")"] :=
  (unknown_country_one_diagnostic ansi (buildCountryMap sampleCountries)
    (genSubdivisionMap sampleSubdivisions) (by decide)).1

/-- C13: with the country map that `Execute` builds from a country list, a line
read as a record of at least 5 fields with a non-empty field 1 gets an "invalid
country code" diagnostic if and only if no country of the list has a code equal
to field 1 (and then it is the message for field 1 on that line); the list
with the repeated codes removed gives the same diagnostics. -/
theorem country_diagnostic_iff_code_absent (color : Color) (countries : List Country)
    (subdivisionMap : GoMap (GoMap Bool)) (n : Nat) (line : String)
    (hs : skipped line = false) (hlen : 5 ≤ (recordOf line).length)
    (hne : fieldOf line 1 ≠ "") :
    ((∃ msg ∈ checkLine color (buildCountryMap countries) subdivisionMap n line,
        IsCountryDiag color msg) ↔ ¬ ∃ x ∈ countries, x.Code = fieldOf line 1) ∧
    ((¬ ∃ x ∈ countries, x.Code = fieldOf line 1) →
      msgCountry color n (fieldOf line 1) ∈
        checkLine color (buildCountryMap countries) subdivisionMap n line) ∧
    checkLine color (buildCountryMap (dedupCodes countries)) subdivisionMap n line =
      checkLine color (buildCountryMap countries) subdivisionMap n line ∧
    ((dedupCodes countries).map Country.Code).Nodup := by
  have hidx := index_buildCountryMap countries (fieldOf line 1)
  have hrec := checkLine_of_record color (buildCountryMap countries) subdivisionMap n line hs hlen
  have hk := cidrErrors_kinds color n line
  have habs : (¬ ∃ x ∈ countries, x.Code = fieldOf line 1) →
      checkLine color (buildCountryMap countries) subdivisionMap n line =
        cidrErrors color n line ++ [msgCountry color n (fieldOf line 1)] := by
    intro h
    have hf : (buildCountryMap countries).index (fieldOf line 1) = false := by
      cases hb : (buildCountryMap countries).index (fieldOf line 1) with
      | false => rfl
      | true => exact absurd (hidx.1 hb) h
    rw [hrec]
    simp [hne, hf]
  refine ⟨⟨?_, ?_⟩, ?_, ?_, nodup_dedupCodes countries⟩
  · rintro ⟨msg, hmsg, hcd⟩ hex
    have ht : (buildCountryMap countries).index (fieldOf line 1) = true := hidx.2 hex
    rw [hrec] at hmsg
    simp only [hne, ht, if_false, Bool.true_eq_false] at hmsg
    have hcid : msg ∈ cidrErrors color n line → False := fun hm => (hk msg hm).1 hcd
    split at hmsg
    · exact hcid hmsg
    · split at hmsg
      · split at hmsg
        · rw [List.mem_append, List.mem_singleton] at hmsg
          rcases hmsg with hmsg | hmsg
          · exact hcid hmsg
          · obtain ⟨m, c, e⟩ := hcd
            rw [hmsg] at e
            exact msgCountry_ne_msgSubdivision color m n c _ _ e.symm
        · exact hcid hmsg
      · rw [List.mem_append, List.mem_singleton] at hmsg
        rcases hmsg with hmsg | hmsg
        · exact hcid hmsg
        · obtain ⟨m, c, e⟩ := hcd
          rw [hmsg] at e
          exact msgCountry_ne_msgNoSubdivisions color m n c _ e.symm
  · intro h
    refine ⟨msgCountry color n (fieldOf line 1), ?_, n, _, rfl⟩
    rw [habs h]
    simp
  · intro h
    rw [habs h]
    simp
  · apply checkLine_congr_index
    intro c
    rw [Bool.eq_iff_iff, index_buildCountryMap (dedupCodes countries) c,
      index_buildCountryMap countries c]
    exact mem_dedupCodes countries c

/-- A country list that names `US` twice and a line for the unknown country
`ZZ`, as an instance of C13. -/
theorem country_diagnostic_iff_code_absent_witness :
    msgCountry ansi 2 (fieldOf "203.0.113.0/24,ZZ,,," 1) ∈
      checkLine ansi
        (buildCountryMap [⟨"United States of America", "US"⟩, ⟨"United States", "US"⟩])
        (genSubdivisionMap sampleSubdivisions) 2 "203.0.113.0/24,ZZ,,," :=
  (country_diagnostic_iff_code_absent ansi
    [⟨"United States of America", "US"⟩, ⟨"United States", "US"⟩]
    (genSubdivisionMap sampleSubdivisions) 2 "203.0.113.0/24,ZZ,,,"
    (by decide) (by decide) (by decide)).2.1 (by decide)

/-- C14: two lines read as records of at least 5 fields that agree on fields 0,
1 and 2 get the same diagnostics under the same line number, whatever their
field counts and whatever their fields 3, 4 and beyond hold. -/
theorem trailing_fields_ignored (color : Color) (countryMap : GoMap Bool)
    (subdivisionMap : GoMap (GoMap Bool)) (n : Nat) (line line2 : String)
    (hs : skipped line = false) (hs2 : skipped line2 = false)
    (hlen : 5 ≤ (recordOf line).length) (hlen2 : 5 ≤ (recordOf line2).length)
    (h0 : fieldOf line 0 = fieldOf line2 0) (h1 : fieldOf line 1 = fieldOf line2 1)
    (h2 : fieldOf line 2 = fieldOf line2 2) :
    checkLine color countryMap subdivisionMap n line =
      checkLine color countryMap subdivisionMap n line2 := by
  rw [checkLine_of_record color countryMap subdivisionMap n line hs hlen,
    checkLine_of_record color countryMap subdivisionMap n line2 hs2 hlen2]
  unfold cidrErrors
  rw [h0, h1, h2]

/-- Two lines with a bad prefix and an unknown subdivision, one of 5 fields
and one of 7 with other city and postal code, as an instance of C14; both get
diagnostics, the same ones. -/
theorem trailing_fields_ignored_witness :
    checkLine ansi (buildCountryMap sampleCountries) (genSubdivisionMap sampleSubdivisions) 4
      "not-a-prefix,US,US-XX,City,00000" =
    checkLine ansi (buildCountryMap sampleCountries) (genSubdivisionMap sampleSubdivisions) 4
      "not-a-prefix,US,US-XX,\"Town, other\",99999,extra,more" :=
  trailing_fields_ignored ansi (buildCountryMap sampleCountries)
    (genSubdivisionMap sampleSubdivisions) 4 "not-a-prefix,US,US-XX,City,00000"
    "not-a-prefix,US,US-XX,\"Town, other\",99999,extra,more"
    (by decide) (by decide) (by decide) (by decide) (by decide) (by decide) (by decide)

/-- C15: `validate.Execute` is called if and only if the arguments after the
program name are `-v` and exactly one more argument, and then on that argument;
on every other argument vector `main` prints a text and exits with status 1
without calling it: the help text with no argument or with `-h` first, the
usage text with `-v` and another number of arguments, the error text naming
the flag with any other first argument. -/
theorem main_runs_validation_iff (args : List String) :
    ((∃ filePath, main args = .execute filePath) ↔
      ∃ prog filePath, args = [prog, "-v", filePath]) ∧
    (∀ prog filePath, args = [prog, "-v", filePath] → main args = .execute filePath) ∧
    ((¬ ∃ prog filePath, args = [prog, "-v", filePath]) →
      ∃ output, main args = .exit output 1) ∧
    (args.length < 2 → main args = .exit help 1) ∧
    (args[1]? = some "-h" → main args = .exit help 1) ∧
    (args[1]? = some "-v" → args.length ≠ 3 → main args = .exit usageText 1) ∧
    (∀ flag, args[1]? = some flag → flag ≠ "-h" → flag ≠ "-v" →
      main args = .exit (invalidFlagText flag) 1) := by
  have key : ∀ prog filePath, args = [prog, "-v", filePath] → main args = .execute filePath := by
    rintro prog filePath rfl
    simp [main]
  have other : (¬ ∃ prog filePath, args = [prog, "-v", filePath]) →
      ∃ output, main args = .exit output 1 := by
    intro hno
    by_cases h2 : args.length < 2
    · exact ⟨help, by simp [main, h2]⟩
    · by_cases hh : args.getD 1 "" = "-h"
      · exact ⟨help, by simp only [main, h2, hh, ne_eq, not_false_eq_true, not_true_eq_false, if_true, if_false]⟩
      · by_cases hv : args.getD 1 "" = "-v"
        · by_cases h3 : args.length ≠ 3
          · exact ⟨usageText, by
            have hvh : ¬ ("-v" = "-h") := by decide
            simp only [main, h2, hv, hvh, h3, ne_eq, not_false_eq_true, not_true_eq_false, if_true, if_false]⟩
          · exfalso
            apply hno
            match args, h3, hv with
            | [a, b, c], _, hv =>
              simp only [List.getD_cons_succ, List.getD_cons_zero] at hv
              exact ⟨a, c, by rw [hv]⟩
            | [], h3, _ => simp at h3
            | [_], h3, _ => simp at h3
            | [_, _], h3, _ => simp at h3
            | _ :: _ :: _ :: _ :: _, h3, _ => simp at h3
        · exact ⟨invalidFlagText (args.getD 1 ""), by simp only [main, h2, hh, hv, ne_eq, not_false_eq_true, not_true_eq_false, if_true, if_false]⟩
  refine ⟨⟨?_, ?_⟩, key, other, ?_, ?_, ?_, ?_⟩
  · rintro ⟨filePath, h⟩
    by_contra hno
    obtain ⟨output, ho⟩ := other hno
    rw [ho] at h
    cases h
  · rintro ⟨prog, filePath, h⟩
    exact ⟨filePath, key prog filePath h⟩
  · intro h
    simp [main, h]
  · intro h
    have hl : ¬ args.length < 2 := by
      intro hlt
      rw [List.getElem?_eq_none (by omega)] at h
      cases h
    have hd : args.getD 1 "" = "-h" := by simp [List.getD_eq_getElem?_getD, h]
    simp only [main, hl, hd, ne_eq, not_false_eq_true, not_true_eq_false, if_true, if_false]
  · intro h h3
    have hl : ¬ args.length < 2 := by
      intro hlt
      rw [List.getElem?_eq_none (by omega)] at h
      cases h
    have hd : args.getD 1 "" = "-v" := by simp [List.getD_eq_getElem?_getD, h]
    have hvh : ¬ ("-v" = "-h") := by decide
    simp only [main, hl, hd, hvh, h3, ne_eq, not_false_eq_true, not_true_eq_false, if_true, if_false]
  · intro flag h hh hv
    have hl : ¬ args.length < 2 := by
      intro hlt
      rw [List.getElem?_eq_none (by omega)] at h
      cases h
    have hd : args.getD 1 "" = flag := by simp [List.getD_eq_getElem?_getD, h]
    simp only [main, hl, hd, hh, hv, ne_eq, not_false_eq_true, not_true_eq_false, if_true, if_false]

/-- C16: `genSubdivisionMap` keeps the keys of the mapping, and under every key
the set it stores holds a string if and only if some subdivision of the list
under that key has that string as its code (the stored value is then `true`). -/
theorem genSubdivisionMap_keys_and_codes (subdivisions : SubdivisionMap) :
    (∀ c, c ∈ (genSubdivisionMap subdivisions).keys ↔ c ∈ subdivisions.keys) ∧
    (genSubdivisionMap subdivisions).keys.toFinset = subdivisions.keys.toFinset ∧
    (∀ c subs, subdivisions.lookup c = some subs →
      ∃ subMap, (genSubdivisionMap subdivisions).lookup c = some subMap ∧
        ∀ s, (subMap.has s = true ↔ ∃ sub ∈ subs, sub.Code = s) ∧
          (subMap.index s = true ↔ ∃ sub ∈ subs, sub.Code = s)) ∧
    (∀ c, subdivisions.lookup c = none → (genSubdivisionMap subdivisions).lookup c = none) := by
  have hkeys : ∀ c, c ∈ (genSubdivisionMap subdivisions).keys ↔ c ∈ subdivisions.keys := by
    intro c
    rw [← AList.mem_keys, ← AList.mem_keys, ← AList.lookup_isSome, ← AList.lookup_isSome,
      lookup_genSubdivisionMap]
    cases subdivisions.lookup c <;> simp
  refine ⟨hkeys, ?_, ?_, ?_⟩
  · ext c
    simp only [List.mem_toFinset]
    exact hkeys c
  · intro c subs h
    refine ⟨genSubMap subs, by rw [lookup_genSubdivisionMap, h]; rfl, ?_⟩
    intro s
    refine ⟨has_genSubMap subs s, ?_⟩
    obtain ⟨h1, h2⟩ := lookup_genSubMap subs s
    unfold GoMap.index
    by_cases hex : ∃ sub ∈ subs, sub.Code = s
    · simp [h1 hex, hex]
    · simp [h2 hex, hex]
  · intro c h
    rw [lookup_genSubdivisionMap, h]
    rfl

theorem checkSyntaxLoop_shift (color : Color) (countryMap : GoMap Bool)
    (subdivisionMap : GoMap (GoMap Bool)) (k : Nat) :
    ∀ (scanner : List String) (j : Nat),
      checkSyntaxLoop color countryMap subdivisionMap scanner (j + k) [] =
        (checkSyntaxLoop color countryMap subdivisionMap scanner j []).map (shiftLine k) := by
  intro scanner
  induction scanner with
  | nil => intro j; simp [checkSyntaxLoop]
  | cons line rest ih =>
    intro j
    have e : j + k + 1 = j + 1 + k := by omega
    rw [checkSyntaxLoop_cons, checkSyntaxLoop_cons, List.map_append, e, ih (j + 1),
      checkLine_shift]

theorem checkLine_eq_nil_iff (color : Color) (countryMap : GoMap Bool)
    (subdivisionMap : GoMap (GoMap Bool)) (n : Nat) (line : String) :
    checkLine color countryMap subdivisionMap (n + 1) line = [] ↔
      checkLine color countryMap subdivisionMap 1 line = [] := by
  have e : n + 1 = 1 + n := by omega
  rw [e, checkLine_shift]
  simp

theorem checkSyntaxLoop_eq_nil_iff (color : Color) (countryMap : GoMap Bool)
    (subdivisionMap : GoMap (GoMap Bool)) :
    ∀ (scanner : List String) (k : Nat),
      checkSyntaxLoop color countryMap subdivisionMap scanner k [] = [] ↔
        ∀ line ∈ scanner, checkLine color countryMap subdivisionMap 1 line = [] := by
  intro scanner
  induction scanner with
  | nil => intro k; simp [checkSyntaxLoop]
  | cons line rest ih =>
    intro k
    rw [checkSyntaxLoop_cons, List.append_eq_nil, ih (k + 1), checkLine_eq_nil_iff]
    simp

/-- C17: on `A` followed by `B`, `checkSyntax` returns the diagnostics of `A`
followed by the diagnostics of `B` with every line number raised by the length
of `A`; so an input has no diagnostic if and only if each of its lines, taken
alone, has none. -/
theorem lines_validated_independently (color : Color) (countryMap : GoMap Bool)
    (subdivisionMap : GoMap (GoMap Bool)) (A B : List String) :
    checkSyntax color (A ++ B) countryMap subdivisionMap =
      checkSyntax color A countryMap subdivisionMap ++
        (checkSyntax color B countryMap subdivisionMap).map (shiftLine A.length) ∧
    (checkSyntax color A countryMap subdivisionMap = [] ↔
      ∀ line ∈ A, checkSyntax color [line] countryMap subdivisionMap = []) := by
  constructor
  · unfold checkSyntax
    rw [checkSyntaxLoop_append, checkSyntaxLoop_acc,
      checkSyntaxLoop_shift color countryMap subdivisionMap A.length B 0]
  · unfold checkSyntax
    rw [checkSyntaxLoop_eq_nil_iff]
    constructor
    · intro h line hl
      rw [checkSyntaxLoop_cons]
      simpa [checkSyntaxLoop] using h line hl
    · intro h line hl
      have := h line hl
      rw [checkSyntaxLoop_cons] at this
      simpa [checkSyntaxLoop] using this

/-- C18 fails as stated: on `192.0.2.0/24,ZZ,,,,"` the CSV reader fails at the
unterminated quote of the sixth field and returns the five fields read before
it, so the line is not reported as "invalid geofeed format" but gets the
"invalid country code" message for `ZZ`. -/
theorem parse_failure_counterexample :
    skipped "192.0.2.0/24,ZZ,,,,\"" = false ∧
    csvRead "192.0.2.0/24,ZZ,,,,\"" = (["192.0.2.0/24", "ZZ", "", "", ""], true) ∧
    checkSyntax ansi ["192.0.2.0/24,ZZ,,,,\""] (buildCountryMap sampleCountries)
      (genSubdivisionMap sampleSubdivisions) = [msgCountry ansi 1 "ZZ"] ∧
    msgCountry ansi 1 "ZZ" ≠ msgGeofeed ansi 1 := by
  refine ⟨by decide, by decide, by decide, by decide⟩

/-- C18, amended: on a line that is neither blank nor a comment and on which
CSV parsing fails, the parse error is discarded and the line is judged on
`record`, the fields read before the error. When these are fewer than 5 the
line gets exactly one diagnostic, the "invalid geofeed format" message, and no
prefix, country or subdivision diagnostic. When they are 5 or more the line
gets no "invalid geofeed format" message and exactly the diagnostics of the
prefix, country and subdivision checks on fields 0, 1 and 2 of `record`: the
prefix message if field 0 is not CIDR notation, then nothing for an empty
field 1, the country message for a field 1 outside the country set, nothing
for an empty field 2, the "no subdivisions found" message when field 1 is no
key of the subdivision index, and the subdivision message when field 2 is not
in the set stored under field 1. -/
theorem parse_failure_judged_on_partial_record (color : Color) (countryMap : GoMap Bool)
    (subdivisionMap : GoMap (GoMap Bool)) (n : Nat) (line : String) (record : List String)
    (hs : skipped line = false) (hread : csvRead line = (record, true)) :
    checkLine color countryMap subdivisionMap n line =
      (if record.length < 5 then [msgGeofeed color n]
      else
        (if ParseCIDR (record.getD 0 "") then []
          else [msgPrefix color n (record.getD 0 "")]) ++
        (if record.getD 1 "" = "" then []
          else if countryMap.index (record.getD 1 "") = false then
            [msgCountry color n (record.getD 1 "")]
          else if record.getD 2 "" = "" then []
          else
            match subdivisionMap.lookup (record.getD 1 "") with
            | some subMap =>
              if subMap.has (record.getD 2 "") = false then
                [msgSubdivision color n (record.getD 2 "") (record.getD 1 "")]
              else []
            | none => [msgNoSubdivisions color n (record.getD 1 "")])) ∧
    (record.length < 5 →
      ∀ msg ∈ checkLine color countryMap subdivisionMap n line,
        ¬ IsPrefixDiag color msg ∧ ¬ IsCountryDiag color msg ∧
          ¬ IsSubdivisionDiag color msg ∧ ¬ IsNoSubdivisionsDiag color msg) ∧
    (5 ≤ record.length →
      ∀ msg ∈ checkLine color countryMap subdivisionMap n line, ¬ IsGeofeedDiag color msg) := by
  have hrec : recordOf line = record := by
    unfold recordOf
    rw [hread]
  subst hrec
  refine ⟨?_, ?_, ?_⟩
  · by_cases hlen : (recordOf line).length < 5
    · rw [checkLine_of_short color countryMap subdivisionMap n line hs hlen, if_pos hlen]
    · rw [checkLine_of_record color countryMap subdivisionMap n line hs (by omega), if_neg hlen]
      unfold cidrErrors fieldOf
      by_cases h1 : (recordOf line).getD 1 "" = ""
      · rw [if_pos h1, if_pos h1, List.append_nil]
      rw [if_neg h1, if_neg h1]
      by_cases hc : countryMap.index ((recordOf line).getD 1 "") = false
      · rw [if_pos hc, if_pos hc]
      rw [if_neg hc, if_neg hc]
      by_cases h2 : (recordOf line).getD 2 "" = ""
      · rw [if_pos h2, if_pos h2, List.append_nil]
      rw [if_neg h2, if_neg h2]
      cases hl : subdivisionMap.lookup ((recordOf line).getD 1 "") with
      | none => rfl
      | some subMap =>
        dsimp only
        by_cases hh : subMap.has ((recordOf line).getD 2 "") = false
        · rw [if_pos hh, if_pos hh]
        · rw [if_neg hh, if_neg hh, List.append_nil]
  · intro hlen msg hmsg
    rw [checkLine_of_short color countryMap subdivisionMap n line hs hlen,
      List.mem_singleton] at hmsg
    subst hmsg
    refine ⟨?_, ?_, ?_, ?_⟩
    · rintro ⟨m, p, e⟩
      exact msgGeofeed_ne_msgPrefix color n m p e
    · rintro ⟨m, c, e⟩
      exact msgGeofeed_ne_msgCountry color n m c e
    · rintro ⟨m, s, c, e⟩
      exact msgGeofeed_ne_msgSubdivision color n m s c e
    · rintro ⟨m, c, e⟩
      exact msgGeofeed_ne_msgNoSubdivisions color n m c e
  · intro hlen msg hmsg
    obtain ⟨tail, h, htail⟩ := checkLine_record_shape color countryMap subdivisionMap n line hs
      hlen
    rw [h, List.mem_append] at hmsg
    rintro ⟨m, e⟩
    rcases hmsg with hmsg | hmsg
    · unfold cidrErrors at hmsg
      split at hmsg
      · simp at hmsg
      · rw [List.mem_singleton] at hmsg
        rw [hmsg] at e
        exact msgGeofeed_ne_msgPrefix color m n _ e.symm
    · rcases htail with rfl | rfl | rfl | rfl
      · simp at hmsg
      · rw [List.mem_singleton] at hmsg
        rw [hmsg] at e
        exact msgGeofeed_ne_msgCountry color m n _ e.symm
      · rw [List.mem_singleton] at hmsg
        rw [hmsg] at e
        exact msgGeofeed_ne_msgSubdivision color m n _ _ e.symm
      · rw [List.mem_singleton] at hmsg
        rw [hmsg] at e
        exact msgGeofeed_ne_msgNoSubdivisions color m n _ e.symm

/-- A line on which the reader fails at the unterminated quote of its sixth
field, after a bad prefix, the country `US` and the unknown subdivision
`US-XX`: it is judged on the five fields read before the error and gets the
prefix message and then the subdivision message, no "invalid geofeed format"
message; an instance of the amended C18. -/
theorem parse_failure_judged_on_partial_record_witness :
    csvRead "not-a-prefix,US,US-XX,City,00000,\"" =
      (["not-a-prefix", "US", "US-XX", "City", "00000"], true) ∧
    checkLine ansi (buildCountryMap sampleCountries) (genSubdivisionMap sampleSubdivisions) 2
      "not-a-prefix,US,US-XX,City,00000,\"" =
      [msgPrefix ansi 2 "not-a-prefix", msgSubdivision ansi 2 "US-XX" "US"] :=
  ⟨by decide,
    (parse_failure_judged_on_partial_record ansi (buildCountryMap sampleCountries)
      (genSubdivisionMap sampleSubdivisions) 2 "not-a-prefix,US,US-XX,City,00000,\""
      ["not-a-prefix", "US", "US-XX", "City", "00000"] (by decide) (by decide)).1.trans
      (by decide)⟩

/-! ### The stand-alone validator, line by line -/

theorem validateGeofeedLine_of_skipped (countryMap : GoMap Bool) (subdivisions : SubdivisionMap)
    (n : Nat) (line : String) (h : skipped line = true) :
    validateGeofeedLine countryMap subdivisions n line = [] := by
  unfold skipped at h
  unfold validateGeofeedLine
  by_cases hb : TrimSpace line = ""
  · simp [hb]
  · have hc : HasPrefix (TrimSpace line) "#" = true := by simpa [hb] using h
    simp [hb, hc]

theorem validateGeofeedLine_of_short (countryMap : GoMap Bool) (subdivisions : SubdivisionMap)
    (n : Nat) (line : String) (hs : skipped line = false) (hlen : (recordOf line).length < 5) :
    validateGeofeedLine countryMap subdivisions n line = [msgGeofeed ansi n] := by
  unfold skipped at hs
  simp only [Bool.or_eq_false_iff, decide_eq_false_iff_not] at hs
  unfold recordOf at hlen
  unfold validateGeofeedLine
  simp [hs.1, hs.2, hlen]

theorem validateGeofeedLine_of_record (countryMap : GoMap Bool) (subdivisions : SubdivisionMap)
    (n : Nat) (line : String) (hs : skipped line = false) (hlen : 5 ≤ (recordOf line).length) :
    validateGeofeedLine countryMap subdivisions n line =
      if fieldOf line 1 = "" then cidrErrors ansi n line
      else if countryMap.index (fieldOf line 1) = false then
        cidrErrors ansi n line ++ [msgCountry ansi n (fieldOf line 1)]
      else if fieldOf line 2 = "" then cidrErrors ansi n line
      else if ((subdivisions.lookup (fieldOf line 1)).getD []).any
          (fun subdivision => decide (subdivision.Code = fieldOf line 2)) = false then
        cidrErrors ansi n line ++ [msgSubdivision ansi n (fieldOf line 2) (fieldOf line 1)]
      else cidrErrors ansi n line := by
  unfold skipped at hs
  simp only [Bool.or_eq_false_iff, decide_eq_false_iff_not] at hs
  have hlen2 : ¬ (csvRead line).1.length < 5 := by
    unfold recordOf at hlen
    omega
  unfold validateGeofeedLine cidrErrors fieldOf recordOf
  simp only [hs.1, hs.2, hlen2, if_false, Bool.false_eq_true, Bool.not_eq_true]

/-- The linear search of `validateGeofeed` finds a code exactly when the code
map of `genSubdivisionMap` holds it. -/
theorem any_code_eq_has_genSubMap (subs : List Subdivision) (s : String) :
    subs.any (fun subdivision => decide (subdivision.Code = s)) = (genSubMap subs).has s := by
  rw [Bool.eq_iff_iff, has_genSubMap]
  simp

/-- On one line the two validators append the same messages, except on a line
read as a record of at least 5 fields whose non-empty field 1 is in the
country map and no key of the subdivision mapping and whose field 2 is not
empty: there the stand-alone validator ends with "invalid subdivision code"
and the plugin with "no subdivisions found for country". -/
theorem validateGeofeedLine_cases (countryMap : GoMap Bool) (subdivisions : SubdivisionMap)
    (n : Nat) (line : String) :
    validateGeofeedLine countryMap subdivisions n line =
        checkLine ansi countryMap (genSubdivisionMap subdivisions) n line ∨
      (skipped line = false ∧ 5 ≤ (recordOf line).length ∧ fieldOf line 1 ≠ "" ∧
        countryMap.index (fieldOf line 1) = true ∧
        subdivisions.lookup (fieldOf line 1) = none ∧ fieldOf line 2 ≠ "" ∧
        validateGeofeedLine countryMap subdivisions n line =
          cidrErrors ansi n line ++ [msgSubdivision ansi n (fieldOf line 2) (fieldOf line 1)] ∧
        checkLine ansi countryMap (genSubdivisionMap subdivisions) n line =
          cidrErrors ansi n line ++ [msgNoSubdivisions ansi n (fieldOf line 1)]) := by
  cases hs : skipped line with
  | true =>
    left
    rw [validateGeofeedLine_of_skipped countryMap subdivisions n line hs,
      checkLine_of_skipped ansi countryMap _ n line hs]
  | false =>
    by_cases hlen : (recordOf line).length < 5
    · left
      rw [validateGeofeedLine_of_short countryMap subdivisions n line hs hlen,
        checkLine_of_short ansi countryMap _ n line hs hlen]
    · have hlen5 : 5 ≤ (recordOf line).length := by omega
      rw [validateGeofeedLine_of_record countryMap subdivisions n line hs hlen5,
        checkLine_of_record ansi countryMap _ n line hs hlen5, lookup_genSubdivisionMap]
      by_cases h1 : fieldOf line 1 = ""
      · left; simp [h1]
      by_cases hc : countryMap.index (fieldOf line 1) = false
      · left; simp [h1, hc]
      by_cases h2 : fieldOf line 2 = ""
      · left; simp [h1, hc, h2]
      have hct : countryMap.index (fieldOf line 1) = true := by
        cases hb : countryMap.index (fieldOf line 1) with
        | true => rfl
        | false => exact absurd hb hc
      cases hl : subdivisions.lookup (fieldOf line 1) with
      | some subs =>
        left
        simp only [h1, hc, h2, if_false, Option.getD_some, Option.map_some',
          any_code_eq_has_genSubMap]
      | none =>
        right
        refine ⟨rfl, hlen5, h1, hct, rfl, h2, ?_, ?_⟩
        · simp [h1, hct, h2]
        · simp [h1, hct, h2]

theorem validateGeofeedLoop_acc (countryMap : GoMap Bool) (subdivisions : SubdivisionMap) :
    ∀ (scanner : List String) (k : Nat) (acc : List String),
      validateGeofeedLoop countryMap subdivisions scanner k acc =
        acc ++ validateGeofeedLoop countryMap subdivisions scanner k [] := by
  intro scanner
  induction scanner with
  | nil => intro k acc; simp [validateGeofeedLoop]
  | cons line rest ih =>
    intro k acc
    simp only [validateGeofeedLoop, List.nil_append]
    rw [ih (k + 1) (acc ++ _), ih (k + 1) (validateGeofeedLine countryMap subdivisions (k + 1) line)]
    simp

theorem validateGeofeedLoop_cons (countryMap : GoMap Bool) (subdivisions : SubdivisionMap)
    (line : String) (scanner : List String) (k : Nat) :
    validateGeofeedLoop countryMap subdivisions (line :: scanner) k [] =
      validateGeofeedLine countryMap subdivisions (k + 1) line ++
        validateGeofeedLoop countryMap subdivisions scanner (k + 1) [] := by
  rw [validateGeofeedLoop, validateGeofeedLoop_acc]
  simp

theorem lineNumbers_cidrErrors (color : Color) (n : Nat) (line : String) :
    (cidrErrors color n line).map lineNumberOf =
      if ParseCIDR (fieldOf line 0) then [] else [some n] := by
  unfold cidrErrors
  split <;> simp [lineNumberOf_msgPrefix]

/-- The line numbers of the diagnostics of a line do not depend on the colour
constants. -/
theorem lineNumbers_checkLine_color (color color2 : Color) (countryMap : GoMap Bool)
    (subdivisionMap : GoMap (GoMap Bool)) (n : Nat) (line : String) :
    (checkLine color countryMap subdivisionMap n line).map lineNumberOf =
      (checkLine color2 countryMap subdivisionMap n line).map lineNumberOf := by
  cases hs : skipped line with
  | true =>
    rw [checkLine_of_skipped color countryMap subdivisionMap n line hs,
      checkLine_of_skipped color2 countryMap subdivisionMap n line hs]
  | false =>
    by_cases hlen : (recordOf line).length < 5
    · rw [checkLine_of_short color countryMap subdivisionMap n line hs hlen,
        checkLine_of_short color2 countryMap subdivisionMap n line hs hlen]
      simp [lineNumberOf_msgGeofeed]
    · rw [checkLine_of_record color countryMap subdivisionMap n line hs (by omega),
        checkLine_of_record color2 countryMap subdivisionMap n line hs (by omega)]
      have hc := lineNumbers_cidrErrors color n line
      have hc2 := lineNumbers_cidrErrors color2 n line
      split
      · rw [hc, hc2]
      · split
        · simp [hc, hc2, lineNumberOf_msgCountry]
        · split
          · rw [hc, hc2]
          · split
            · split
              · simp [hc, hc2, lineNumberOf_msgSubdivision]
              · rw [hc, hc2]
            · simp [hc, hc2, lineNumberOf_msgNoSubdivisions]

theorem lineNumbers_validateGeofeedLine (color : Color) (countryMap : GoMap Bool)
    (subdivisions : SubdivisionMap) (n : Nat) (line : String) :
    (validateGeofeedLine countryMap subdivisions n line).map lineNumberOf =
      (checkLine color countryMap (genSubdivisionMap subdivisions) n line).map lineNumberOf := by
  rw [lineNumbers_checkLine_color color ansi]
  rcases validateGeofeedLine_cases countryMap subdivisions n line with h | h
  · rw [h]
  · obtain ⟨_, _, _, _, _, _, hv, hc⟩ := h
    rw [hv, hc]
    simp [lineNumberOf_msgSubdivision, lineNumberOf_msgNoSubdivisions]

theorem lineNumbers_validateGeofeedLoop (color : Color) (countryMap : GoMap Bool)
    (subdivisions : SubdivisionMap) :
    ∀ (scanner : List String) (k : Nat),
      (validateGeofeedLoop countryMap subdivisions scanner k []).map lineNumberOf =
        (checkSyntaxLoop color countryMap (genSubdivisionMap subdivisions) scanner k []).map
          lineNumberOf := by
  intro scanner
  induction scanner with
  | nil => intro k; simp [validateGeofeedLoop, checkSyntaxLoop]
  | cons line rest ih =>
    intro k
    rw [validateGeofeedLoop_cons, checkSyntaxLoop_cons, List.map_append, List.map_append,
      ih (k + 1), lineNumbers_validateGeofeedLine color]

/-- The loop body uses the colour constants `Magenta`, `Reset` and `Cyan`
only. -/
theorem checkLine_color_congr (color color2 : Color) (countryMap : GoMap Bool)
    (subdivisionMap : GoMap (GoMap Bool)) (n : Nat) (line : String)
    (hm : color.Magenta = color2.Magenta) (hr : color.Reset = color2.Reset)
    (hc : color.Cyan = color2.Cyan) :
    checkLine color countryMap subdivisionMap n line =
      checkLine color2 countryMap subdivisionMap n line := by
  unfold checkLine msgGeofeed msgPrefix msgCountry msgSubdivision msgNoSubdivisions
  rw [hm, hr, hc]

theorem validateGeofeedLoop_eq_checkSyntaxLoop (color : Color) (countries : List Country)
    (subdivisions : SubdivisionMap)
    (hm : color.Magenta = ansi.Magenta) (hr : color.Reset = ansi.Reset)
    (hc : color.Cyan = ansi.Cyan)
    (hkeys : ∀ x ∈ countries, x.Code ∈ subdivisions.keys) :
    ∀ (scanner : List String) (k : Nat),
      validateGeofeedLoop (buildCountryMap countries) subdivisions scanner k [] =
        checkSyntaxLoop color (buildCountryMap countries) (genSubdivisionMap subdivisions)
          scanner k [] := by
  intro scanner
  induction scanner with
  | nil => intro k; simp [validateGeofeedLoop, checkSyntaxLoop]
  | cons line rest ih =>
    intro k
    rw [validateGeofeedLoop_cons, checkSyntaxLoop_cons, ih (k + 1),
      checkLine_color_congr color ansi _ _ _ _ hm hr hc]
    congr 1
    rcases validateGeofeedLine_cases (buildCountryMap countries) subdivisions (k + 1) line
      with h | h
    · exact h
    · obtain ⟨_, _, _, hidx, hnone, _, _, _⟩ := h
      obtain ⟨x, hx, hxc⟩ := (index_buildCountryMap countries _).1 hidx
      have hmem := hkeys x hx
      rw [hxc, ← AList.mem_keys, ← AList.lookup_isSome, hnone] at hmem
      simp at hmem

/-- C19: on the same lines, country list and subdivision mapping the
stand-alone validator and the plugin validator return the same number of
diagnostics, with the same line numbers in the same order; with the colour
constants of the plugin equal to those of `validator.go` the two outputs are
the same list whenever every code of the country list is a key of the
subdivision mapping; and line by line they differ only where a non-empty
country code of the country map is no key of the mapping and the subdivision
code is not empty, the stand-alone validator ending with "invalid subdivision
code" and the plugin with "no subdivisions found for country". -/
theorem validators_agree (color : Color) (scanner : List String) (countries : List Country)
    (subdivisions : SubdivisionMap) :
    (validateGeofeed (.ok scanner) countries subdivisions).length =
      (checkSyntax color scanner (buildCountryMap countries)
        (genSubdivisionMap subdivisions)).length ∧
    (validateGeofeed (.ok scanner) countries subdivisions).map lineNumberOf =
      (checkSyntax color scanner (buildCountryMap countries)
        (genSubdivisionMap subdivisions)).map lineNumberOf ∧
    (color.Magenta = ansi.Magenta → color.Reset = ansi.Reset → color.Cyan = ansi.Cyan →
      (∀ x ∈ countries, x.Code ∈ subdivisions.keys) →
      validateGeofeed (.ok scanner) countries subdivisions =
        checkSyntax color scanner (buildCountryMap countries) (genSubdivisionMap subdivisions)) ∧
    (∀ n line,
      validateGeofeedLine (buildCountryMap countries) subdivisions n line =
          checkLine ansi (buildCountryMap countries) (genSubdivisionMap subdivisions) n line ∨
        (skipped line = false ∧ 5 ≤ (recordOf line).length ∧ fieldOf line 1 ≠ "" ∧
          (buildCountryMap countries).index (fieldOf line 1) = true ∧
          subdivisions.lookup (fieldOf line 1) = none ∧ fieldOf line 2 ≠ "" ∧
          validateGeofeedLine (buildCountryMap countries) subdivisions n line =
            cidrErrors ansi n line ++
              [msgSubdivision ansi n (fieldOf line 2) (fieldOf line 1)] ∧
          checkLine ansi (buildCountryMap countries) (genSubdivisionMap subdivisions) n line =
            cidrErrors ansi n line ++ [msgNoSubdivisions ansi n (fieldOf line 1)])) ∧
    (validateGeofeed (.ok ["192.0.2.0/24,CA,CA-XX,City,00000"]) sampleCountries
        sampleSubdivisions = [msgSubdivision ansi 1 "CA-XX" "CA"] ∧
      checkSyntax ansi ["192.0.2.0/24,CA,CA-XX,City,00000"] (buildCountryMap sampleCountries)
        (genSubdivisionMap sampleSubdivisions) = [msgNoSubdivisions ansi 1 "CA"]) := by
  have hnum := lineNumbers_validateGeofeedLoop color (buildCountryMap countries) subdivisions
    scanner 0
  refine ⟨?_, hnum, ?_, ?_, by decide, by decide⟩
  · have := congrArg List.length hnum
    simpa [validateGeofeed, checkSyntax] using this
  · intro hm hr hc hkeys
    exact validateGeofeedLoop_eq_checkSyntaxLoop color countries subdivisions hm hr hc hkeys
      scanner 0
  · intro n line
    exact validateGeofeedLine_cases (buildCountryMap countries) subdivisions n line

end Geofeed
